import Mathlib

/-! # CloudEvents Go SDK: binding and transcoding engine

A shallow embedding of the sender algorithm (`ExSender.Send`), the metadata
transformers (`AddUUID`, `AddTimeNow`, `UpdateAttribute`), the channel receiver
(`ChanReceiver.Receive`), the HTTP request encoder (`httpRequestEncoder`), the
client (`ceClient`), the SQL negate expression, the port stored in a context
and the data model they act on, followed by the properties established about
them.

Conventions of the embedding:

* a Go `error` result is an `Option Error`, `none` being `nil`;
* a Go `interface{}` value is an `Any`, `none` being `nil`;
* an interface value that may be `nil` (`spec.Attribute`, `spec.Version`,
  a builder) is an `Option`;
* stateful objects are passed explicitly: a method takes the state before the
  call and returns the state after it;
* a run-time panic (a nil dereference) is `Except.error Fault.nilDereference`.
-/

namespace CloudEvents

/-! ## Errors -/

/-- Go `error` values that the binding package distinguishes: the two
mode-decline signals `binding.ErrNotStructured` and `binding.ErrNotBinary`, and
every other error, identified by its message. -/
inductive Error where
  | ErrNotStructured
  | ErrNotBinary
  | other (msg : String)
  deriving DecidableEq, Repr

/-- The mode-decline signals of the binding package. -/
def Error.isModeDecline : Error → Bool
  | .ErrNotStructured => true
  | .ErrNotBinary => true
  | .other _ => false

/-- Whether an `error` result is one of the mode-decline signals (`nil` is not). -/
def isModeDecline : Option Error → Bool
  | none => false
  | some e => e.isModeDecline

/-- A run-time panic of the Go program. -/
inductive Fault where
  | nilDereference
  deriving DecidableEq, Repr

/-! ## Data model -/

/-- Logical attribute kinds of the spec registry (`spec.Kind`). -/
inductive Kind where
  | ID
  | Source
  | SpecVersion
  | Typ
  | DataContentType
  | DataSchema
  | Subject
  | Time
  deriving DecidableEq, Repr

/-- Every attribute kind, in registry order. -/
def Kind.all : List Kind :=
  [.ID, .Source, .SpecVersion, .Typ, .DataContentType, .DataSchema, .Subject, .Time]

/-- A `time.Time`, as the signed distance from the zero instant. -/
structure Time where
  sinceZero : Int
  deriving DecidableEq, Repr

/-- Go `time.Time.IsZero`. -/
def Time.IsZero (t : Time) : Bool := t.sinceZero == 0

/-- Scalar attribute values (what an `interface{}` attribute value holds when
it is not `nil`). -/
inductive Value where
  | str (s : String)
  | timestamp (t : Time)
  | int (n : Int)
  | bool (b : Bool)
  | bytes (b : List Nat)
  deriving DecidableEq, Repr

/-- A Go `interface{}` attribute value: `none` is `nil`. -/
abbrev Any := Option Value

/-- Modelled from the spec: a `spec.Version` (the registry entry of one spec
version; package `binding/spec` is not among the sources). It binds each
attribute kind that exists in the version to its wire name. -/
structure Version where
  name : String
  names : List (Kind × String)
  deriving DecidableEq, Repr

/-- Modelled from the spec: a `spec.Attribute`, a logical kind bound to a
version. `kind` and `version` are the Go methods `Kind()` and `Version()`. -/
structure Attribute where
  kind : Kind
  version : Version
  deriving DecidableEq, Repr

/-- Modelled from the spec: `Attribute.Name()`, the wire name the version
gives to the kind. -/
def Attribute.Name (a : Attribute) : String :=
  (a.version.names.lookup a.kind).getD ""

/-- Modelled from the spec: `Version.AttributeFromKind(kind)`, which is `nil`
(`none`) when the kind does not exist in the version. -/
def Version.AttributeFromKind (v : Version) (k : Kind) : Option Attribute :=
  match v.names.lookup k with
  | some _ => some { kind := k, version := v }
  | none => none

/-- Modelled from the spec: the registry `spec.VS`; `VS.Version(name)` fails
with an unknown-version error when no version of the table has that name. -/
def VS.Version (vs : List Version) (name : String) : Except Error Version :=
  match vs.find? (fun v => v.name == name) with
  | some v => .ok v
  | none => .error (.other "unknown version")

/-- Modelled from the spec: a `cloudevents.Event` with its context: the spec
attributes present in the event by kind, the extension attributes and the
payload (package `cloudevents` is not among the sources). -/
structure Event where
  attrs : Kind → Option Value
  extensions : List (String × Value)
  data : Option (List Nat)

/-- Modelled from the spec: `Event.SpecVersion()`. -/
def Event.SpecVersion (e : Event) : String :=
  match e.attrs .SpecVersion with
  | some (.str s) => s
  | _ => ""

/-- Modelled from the spec: `EventContext.GetID()`; an absent id reads as the
empty string. -/
def Event.GetID (e : Event) : String :=
  match e.attrs .ID with
  | some (.str s) => s
  | _ => ""

/-- Modelled from the spec: `EventContext.SetID(id)`. -/
def Event.SetID (e : Event) (id : String) : Option Error × Event :=
  (none, { e with attrs := Function.update e.attrs .ID (some (.str id)) })

/-- Modelled from the spec: `EventContext.GetTime()`; an absent time reads as
the zero time. -/
def Event.GetTime (e : Event) : Time :=
  match e.attrs .Time with
  | some (.timestamp t) => t
  | _ => { sinceZero := 0 }

/-- Modelled from the spec: `EventContext.SetTime(t)`. -/
def Event.SetTime (e : Event) (t : Time) : Option Error × Event :=
  (none, { e with attrs := Function.update e.attrs .Time (some (.timestamp t)) })

/-- Modelled from the spec: `Attribute.Get(context)`, `nil` when the event has
no attribute of that kind. -/
def Attribute.Get (a : Attribute) (e : Event) : Any := e.attrs a.kind

/-- Modelled from the spec: `Attribute.Set(context, value)`. -/
def Attribute.Set (a : Attribute) (e : Event) (value : Any) : Option Error × Event :=
  (none, { e with attrs := Function.update e.attrs a.kind value })

/-- Modelled from the spec: `Attribute.Delete(context)`. The event context
refuses to lose an attribute it requires (the id, which the spec requires to be
a non-empty string): `refuse` gives, for such a kind, the validation error the
deletion is answered with, and the event is then left as it is; an attribute of
any other kind is removed. -/
def Attribute.Delete (refuse : Kind → Option Error) (a : Attribute) (e : Event) :
    Option Error × Event :=
  match refuse a.kind with
  | some err => (some err, e)
  | none => (none, { e with attrs := Function.update e.attrs a.kind none })

/-! ## Structured and event builders, messages -/

/-- A structured format, identified by its media type (`format.Format`). -/
structure Format where
  MediaType : String
  deriving DecidableEq, Repr

/-- The format `format.JSON`. -/
def Format.JSON : Format := { MediaType := "application/cloudevents+json" }

/-- An `io.Reader`, as what reading it to the end gives (`ioutil.ReadAll`). -/
abbrev Reader := Except Error (List Nat)

/-- The interface `binding.StructuredMessageBuilder`: its one method
`Event(format, reader) error`, acting on the state `W` of the destination. -/
abbrev StructuredMessageBuilder (W : Type) := Format → Reader → W → Option Error × W

/-- The interface `binding.EventMessageBuilder`: its one method
`Encode(event) error`. -/
abbrev EventMessageBuilder (W : Type) := Event → W → Option Error × W

/-- The methods of a `binding.Message` that a sender of this kind calls. Each
takes the builder it writes into and the state before the call. -/
structure Message (W : Type) where
  Structured : StructuredMessageBuilder W → W → Option Error × W
  Event : EventMessageBuilder W → W → Option Error × W

/-- The interface `binding.TranscoderFactory`, as far as `ExSender` uses it: a
structured wrapper, `nil` when the factory does not support structured
transcoding, and an event wrapper. -/
structure TranscoderFactory (W : Type) where
  StructuredMessageTranscoder : StructuredMessageBuilder W → Option (StructuredMessageBuilder W)
  EventMessageTranscoder : EventMessageBuilder W → EventMessageBuilder W

/-- Modelled from the spec: `TranscoderFactories.StructuredMessageTranscoder`
(the chain type is not among the sources). The factories wrap the builder one
after the other; a factory that returns `nil` makes the whole result `nil`. -/
def TranscoderFactories.StructuredMessageTranscoder {W : Type}
    (t : List (TranscoderFactory W)) (builder : StructuredMessageBuilder W) :
    Option (StructuredMessageBuilder W) :=
  t.foldl (fun acc f => acc.bind f.StructuredMessageTranscoder) (some builder)

/-- Modelled from the spec: `TranscoderFactories.EventMessageTranscoder`, the
event wrappers of the factories applied one after the other. -/
def TranscoderFactories.EventMessageTranscoder {W : Type}
    (t : List (TranscoderFactory W)) (builder : EventMessageBuilder W) :
    EventMessageBuilder W :=
  t.foldl (fun acc f => f.EventMessageTranscoder acc) builder

/-! ## The example sender -/

/-- What the JSON encoder of an `ExSender` is asked to write. -/
inductive JsonDoc where
  | raw (b : List Nat)
  | event (e : Event)

/-- The struct `ExSender`: a JSON encoder (`json.Encoder.Encode`, of the
standard library, acting on the output state `W`) and the transcoder chain. -/
structure ExSender (W : Type) where
  encoder : JsonDoc → W → Option Error × W
  transcodings : List (TranscoderFactory W)

/-- The method `ExSender.Event`, by which the sender is a structured builder. -/
def ExSender.Event {W : Type} (s : ExSender W) : StructuredMessageBuilder W :=
  fun f event w =>
    if f = Format.JSON then
      match event with
      | .error err => (some err, w)
      | .ok b => s.encoder (.raw b) w
    else
      (some .ErrNotStructured, w)

/-- The method `ExSender.Encode`, by which the sender is an event builder. -/
def ExSender.Encode {W : Type} (s : ExSender W) : EventMessageBuilder W :=
  fun event w => s.encoder (.event event) w

/-- The calls a sender makes on a message. -/
inductive MessageCall where
  | Structured
  | Event
  deriving DecidableEq, Repr

/-- The outcome of a `Send`: the returned error, the state afterwards, and the
calls made on the message, in order. -/
structure SendOutcome (W : Type) where
  err : Option Error
  world : W
  calls : List MessageCall

/-- The structured builder `ExSender.Send` starts from:
`s.transcodings.StructuredMessageTranscoder(s)`. -/
def ExSender.structuredBuilder {W : Type} (s : ExSender W) :
    Option (StructuredMessageBuilder W) :=
  TranscoderFactories.StructuredMessageTranscoder s.transcodings s.Event

/-- The event builder `ExSender.Send` falls back to:
`s.transcodings.EventMessageTranscoder(s)`. -/
def ExSender.eventBuilder {W : Type} (s : ExSender W) : EventMessageBuilder W :=
  TranscoderFactories.EventMessageTranscoder s.transcodings s.Encode

/-- The method `ExSender.Send`. The calls it makes on the message are recorded
in the outcome. -/
def ExSender.Send {W : Type} (s : ExSender W) (m : Message W) (w : W) : SendOutcome W :=
  match s.structuredBuilder with
  | some structuredBuilder =>
    match m.Structured structuredBuilder w with
    | (none, w1) => { err := none, world := w1, calls := [.Structured] }
    | (some err, w1) =>
      if err ≠ .ErrNotStructured then
        { err := some err, world := w1, calls := [.Structured] }
      else
        let r := m.Event s.eventBuilder w1
        { err := r.1, world := r.2, calls := [.Structured, .Event] }
  | none =>
    let r := m.Event s.eventBuilder w
    { err := r.1, world := r.2, calls := [.Event] }

/-- The type `ExMessage`, a JSON encoded event, with its methods `Structured`
and `Event`; `json.Unmarshal` is the standard library function. -/
def ExMessage {W : Type} (unmarshal : List Nat → Except Error Event) (m : List Nat) :
    Message W where
  Structured := fun b w => b Format.JSON (.ok m) w
  Event := fun b w =>
    match unmarshal m with
    | .error err => (some err, w)
    | .ok e => b e w

/-! ### Fixtures for the sender -/

/-- An output that appends each document to a log and never fails. -/
def logEncoder : JsonDoc → List JsonDoc → Option Error × List JsonDoc :=
  fun d w => (none, w ++ [d])

/-- A sender without transcoders, writing to a log. -/
def plainSender : ExSender (List JsonDoc) :=
  { encoder := logEncoder, transcodings := [] }

/-- A message whose structured transfer breaks with a hard error. -/
def brokenMessage : Message (List JsonDoc) where
  Structured := fun _ w => (some (.other "read failed"), w)
  Event := fun _ w => (none, w)

/-- A message that declines structured mode and whose event decoding answers
with the binary decline signal. -/
def decliningMessage : Message (List JsonDoc) where
  Structured := fun _ w => (some .ErrNotStructured, w)
  Event := fun _ w => (some .ErrNotBinary, w)

/-- A sender without transcoders whose output is the record of the calls the
message has received. -/
def silentSender : ExSender (List MessageCall) :=
  { encoder := fun _ w => (none, w), transcodings := [] }

/-- A message that records in the state each call it receives; it declines
structured mode and its event decoding succeeds. -/
def recordingMessage : Message (List MessageCall) where
  Structured := fun _ w => (some .ErrNotStructured, w ++ [.Structured])
  Event := fun _ w => (none, w ++ [.Event])

/-- An event with no attribute at all. -/
def Event.empty : Event :=
  { attrs := fun _ => none, extensions := [], data := none }

/-- A decoder that accepts every document as the empty event. -/
def trivialUnmarshal : List Nat → Except Error Event := fun _ => .ok Event.empty

/-! ## Binary encoders and the metadata transformers -/

/-- The interface `binding.BinaryEncoder`, acting on the state `σ` of the
encoder. The attribute of `SetAttribute` is an interface value and may be nil. -/
structure BinaryEncoder (σ : Type) where
  SetAttribute : Option Attribute → Any → σ → Except Fault (Option Error × σ)
  SetExtension : String → Any → σ → Except Fault (Option Error × σ)
  SetData : Reader → σ → Except Fault (Option Error × σ)
  End : σ → Except Fault (Option Error × σ)

/-- The struct `addUUIDTransformer`: the state of the embedded `BinaryEncoder`
(field `encoder`), the version recorded by the last `SetAttribute` (nil at
first) and the flag. -/
structure addUUIDTransformer (σ : Type) where
  encoder : σ
  version : Option Version
  found : Bool

/-- The method `addUUIDTransformer.SetAttribute`. -/
def addUUIDTransformer.SetAttribute {σ : Type} (inner : BinaryEncoder σ)
    (attr : Option Attribute) (value : Any) (b : addUUIDTransformer σ) :
    Except Fault (Option Error × addUUIDTransformer σ) :=
  match attr with
  | none => .error .nilDereference
  | some a =>
    let b1 := if a.kind = .ID then { b with found := true } else b
    let b2 := { b1 with version := some a.version }
    match inner.SetAttribute (some a) value b2.encoder with
    | .error f => .error f
    | .ok (r, s) => .ok (r, { b2 with encoder := s })

/-- The method `addUUIDTransformer.End`; `uuid` is what `uuid.New().String()`
gives at this call. -/
def addUUIDTransformer.End {σ : Type} (uuid : String) (inner : BinaryEncoder σ)
    (b : addUUIDTransformer σ) : Except Fault (Option Error × addUUIDTransformer σ) :=
  if !b.found then
    match b.version with
    | none => .error .nilDereference
    | some v =>
      match inner.SetAttribute (v.AttributeFromKind .ID) (some (.str uuid)) b.encoder with
      | .error f => .error f
      | .ok (r, s) => .ok (r, { b with encoder := s })
  else
    .ok (none, b)

/-- A method of the embedded encoder, promoted to the wrapper unchanged. -/
def addUUIDTransformer.promoted {σ : Type} (call : σ → Except Fault (Option Error × σ))
    (b : addUUIDTransformer σ) : Except Fault (Option Error × addUUIDTransformer σ) :=
  match call b.encoder with
  | .error f => .error f
  | .ok (r, s) => .ok (r, { b with encoder := s })

/-- The method `addUUID.BinaryTransformer`: the methods of the wrapper. -/
def addUUID.BinaryTransformer {σ : Type} (uuid : String) (encoder : BinaryEncoder σ) :
    BinaryEncoder (addUUIDTransformer σ) where
  SetAttribute := addUUIDTransformer.SetAttribute encoder
  SetExtension := fun n v => addUUIDTransformer.promoted (encoder.SetExtension n v)
  SetData := fun r => addUUIDTransformer.promoted (encoder.SetData r)
  End := addUUIDTransformer.End uuid encoder

/-- The method `addUUID.BinaryTransformer`: the fresh state of the wrapper. -/
def addUUID.newTransformer {σ : Type} (s : σ) : addUUIDTransformer σ :=
  { encoder := s, version := none, found := false }

/-- The method `addUUID.EventTransformer`. -/
def addUUID.EventTransformer (uuid : String) (event : Event) : Option Error × Event :=
  if event.GetID = "" then
    event.SetID uuid
  else
    (none, event)

/-- The struct `addTimeNowTransformer`. -/
structure addTimeNowTransformer (σ : Type) where
  encoder : σ
  version : Option Version
  found : Bool

/-- The method `addTimeNowTransformer.SetAttribute`. -/
def addTimeNowTransformer.SetAttribute {σ : Type} (inner : BinaryEncoder σ)
    (attr : Option Attribute) (value : Any) (b : addTimeNowTransformer σ) :
    Except Fault (Option Error × addTimeNowTransformer σ) :=
  match attr with
  | none => .error .nilDereference
  | some a =>
    let b1 := if a.kind = .Time then { b with found := true } else b
    let b2 := { b1 with version := some a.version }
    match inner.SetAttribute (some a) value b2.encoder with
    | .error f => .error f
    | .ok (r, s) => .ok (r, { b2 with encoder := s })

/-- The method `addTimeNowTransformer.End`; `now` is what `time.Now()` gives
at this call. -/
def addTimeNowTransformer.End {σ : Type} (now : Time) (inner : BinaryEncoder σ)
    (b : addTimeNowTransformer σ) : Except Fault (Option Error × addTimeNowTransformer σ) :=
  if !b.found then
    match b.version with
    | none => .error .nilDereference
    | some v =>
      match inner.SetAttribute (v.AttributeFromKind .Time) (some (.timestamp now))
          b.encoder with
      | .error f => .error f
      | .ok (r, s) => .ok (r, { b with encoder := s })
  else
    .ok (none, b)

/-- A method of the embedded encoder, promoted to the wrapper unchanged. -/
def addTimeNowTransformer.promoted {σ : Type} (call : σ → Except Fault (Option Error × σ))
    (b : addTimeNowTransformer σ) : Except Fault (Option Error × addTimeNowTransformer σ) :=
  match call b.encoder with
  | .error f => .error f
  | .ok (r, s) => .ok (r, { b with encoder := s })

/-- The method `addTimeNow.BinaryTransformer`: the methods of the wrapper. -/
def addTimeNow.BinaryTransformer {σ : Type} (now : Time) (encoder : BinaryEncoder σ) :
    BinaryEncoder (addTimeNowTransformer σ) where
  SetAttribute := addTimeNowTransformer.SetAttribute encoder
  SetExtension := fun n v => addTimeNowTransformer.promoted (encoder.SetExtension n v)
  SetData := fun r => addTimeNowTransformer.promoted (encoder.SetData r)
  End := addTimeNowTransformer.End now encoder

/-- The method `addTimeNow.BinaryTransformer`: the fresh state of the wrapper. -/
def addTimeNow.newTransformer {σ : Type} (s : σ) : addTimeNowTransformer σ :=
  { encoder := s, version := none, found := false }

/-- The method `addTimeNow.EventTransformer`. -/
def addTimeNow.EventTransformer (now : Time) (event : Event) : Option Error × Event :=
  if event.GetTime.IsZero then
    event.SetTime now
  else
    (none, event)

/-- The method `updateAttributeTransformer.SetAttribute`. The wrapper has no
mutable field of its own, so its state is the state of the embedded encoder. -/
def updateAttributeTransformer.SetAttribute {σ : Type} (attributeKind : Kind)
    (updater : Any → Any) (inner : BinaryEncoder σ)
    (attr : Option Attribute) (value : Any) (s : σ) : Except Fault (Option Error × σ) :=
  match attr with
  | none => .error .nilDereference
  | some a =>
    if a.kind = attributeKind then
      match updater value with
      | some newVal => inner.SetAttribute (some a) (some newVal) s
      | none => .ok (none, s)
    else
      inner.SetAttribute (some a) value s

/-- The method `updateAttributeTranscoderFactory.BinaryTransformer`; every
method but `SetAttribute` is the promoted method of the embedded encoder. -/
def updateAttributeTranscoderFactory.BinaryTransformer {σ : Type} (attributeKind : Kind)
    (updater : Any → Any) (encoder : BinaryEncoder σ) : BinaryEncoder σ where
  SetAttribute := updateAttributeTransformer.SetAttribute attributeKind updater encoder
  SetExtension := encoder.SetExtension
  SetData := encoder.SetData
  End := encoder.End

/-- The method `updateAttributeTranscoderFactory.EventTransformer`; `vs` is the
registry `spec.VS` and `refuse` the deletions the event context refuses.
Calling `Get` on a nil attribute is a nil dereference. -/
def updateAttributeTranscoderFactory.EventTransformer (vs : List Version)
    (refuse : Kind → Option Error) (attributeKind : Kind) (updater : Any → Any)
    (event : Event) :
    Except Fault (Option Error × Event) :=
  match VS.Version vs event.SpecVersion with
  | .error err => .ok (some err, event)
  | .ok v =>
    match v.AttributeFromKind attributeKind with
    | none => .error .nilDereference
    | some a =>
      match a.Get event with
      | some val =>
        match updater (some val) with
        | none => .ok (a.Delete refuse event)
        | some newVal => .ok (a.Set event (some newVal))
      | none => .ok (none, event)

/-! ## Sources, destinations and chains -/

/-- Modelled from the spec: the attribute part of `Message.Binary` of a
binary-mode source: `SetAttribute` for each attribute in turn, given up at the
first error. -/
def BinaryMessage.emit {σ : Type} (enc : BinaryEncoder σ) :
    List (Attribute × Any) → σ → Except Fault (Option Error × σ)
  | [], s => .ok (none, s)
  | (a, v) :: rest, s =>
    match enc.SetAttribute (some a) v s with
    | .error f => .error f
    | .ok (some err, s1) => .ok (some err, s1)
    | .ok (none, s1) => BinaryMessage.emit enc rest s1

/-- Modelled from the spec: `Message.Binary` of a binary-mode source without
payload: `SetAttribute` for every attribute, then `End`. -/
def BinaryMessage.Binary {σ : Type} (enc : BinaryEncoder σ) (attributes : List (Attribute × Any))
    (s : σ) : Except Fault (Option Error × σ) :=
  match BinaryMessage.emit enc attributes s with
  | .error f => .error f
  | .ok (some err, s1) => .ok (some err, s1)
  | .ok (none, s1) => enc.End s1

/-- Modelled from the spec: the attributes a binary-mode message holding the
event presents, one for each kind of the version that the event has. -/
def Event.binaryAttributes (v : Version) (e : Event) : List Kind → List (Attribute × Any)
  | [] => []
  | k :: ks =>
    match v.AttributeFromKind k, e.attrs k with
    | some a, some val => (a, some val) :: Event.binaryAttributes v e ks
    | _, _ => Event.binaryAttributes v e ks

/-- The calls an encoder receives. -/
inductive EncoderCall where
  | SetAttribute (attr : Option Attribute) (value : Any)
  | SetExtension (name : String) (value : Any)
  | SetData (reader : Reader)
  | End

/-- An encoder together with the log of the calls it has received. -/
def logged {σ : Type} (enc : BinaryEncoder σ) : BinaryEncoder (σ × List EncoderCall) where
  SetAttribute := fun a v s =>
    match enc.SetAttribute a v s.1 with
    | .error f => .error f
    | .ok (r, s1) => .ok (r, (s1, s.2 ++ [.SetAttribute a v]))
  SetExtension := fun n v s =>
    match enc.SetExtension n v s.1 with
    | .error f => .error f
    | .ok (r, s1) => .ok (r, (s1, s.2 ++ [.SetExtension n v]))
  SetData := fun rd s =>
    match enc.SetData rd s.1 with
    | .error f => .error f
    | .ok (r, s1) => .ok (r, (s1, s.2 ++ [.SetData rd]))
  End := fun s =>
    match enc.End s.1 with
    | .error f => .error f
    | .ok (r, s1) => .ok (r, (s1, s.2 ++ [.End]))

/-- An encoder without state that accepts every call. -/
def nullEncoder : BinaryEncoder Unit where
  SetAttribute := fun _ _ s => .ok (none, s)
  SetExtension := fun _ _ s => .ok (none, s)
  SetData := fun _ s => .ok (none, s)
  End := fun s => .ok (none, s)

/-- A destination that only records the calls it receives. -/
def recorder : BinaryEncoder (Unit × List EncoderCall) := logged nullEncoder

/-- A destination that builds an event from the attributes it receives. -/
def eventEncoder : BinaryEncoder Event where
  SetAttribute := fun attr value e =>
    match attr with
    | none => .error .nilDereference
    | some a => .ok (a.Set e value)
  SetExtension := fun _ _ e => .ok (none, e)
  SetData := fun _ e => .ok (none, e)
  End := fun e => .ok (none, e)

/-- Modelled from the spec: `TransformerFactories.BinaryTransformer` for
wrappers that keep the state type: the first declared factory wraps the
destination encoder, each later one wraps the result, so the last declared is
closest to the source. -/
def TransformerFactories.BinaryTransformer {σ : Type}
    (t : List (BinaryEncoder σ → BinaryEncoder σ)) (encoder : BinaryEncoder σ) :
    BinaryEncoder σ :=
  t.foldl (fun acc f => f acc) encoder

/-- Modelled from the spec: `TransformerFactories.EventTransformer`: the event
transformers applied in declaration order, given up at the first error. -/
def TransformerFactories.EventTransformer
    (t : List (Event → Except Fault (Option Error × Event))) (event : Event) :
    Except Fault (Option Error × Event) :=
  match t with
  | [] => .ok (none, event)
  | f :: rest =>
    match f event with
    | .error p => .error p
    | .ok (some err, e1) => .ok (some err, e1)
    | .ok (none, e1) => TransformerFactories.EventTransformer rest e1

/-! ### Fixtures for the transformers -/

/-- A sample version table, for spec version 0.3, in which every kind exists. -/
def V03 : Version :=
  { name := "0.3",
    names := [(.ID, "id"), (.Source, "source"), (.SpecVersion, "specversion"), (.Typ, "type"),
      (.DataContentType, "datacontenttype"), (.DataSchema, "schemaurl"),
      (.Subject, "subject"), (.Time, "time")] }

/-- The attribute of a kind in `V03`. -/
def V03.attr (k : Kind) : Attribute := { kind := k, version := V03 }

/-- What the source of the scenario presents: specversion, type and source,
neither id nor time. -/
def scenarioAttributes : List (Attribute × Any) :=
  [(V03.attr .SpecVersion, some (.str "0.3")),
   (V03.attr .Typ, some (.str "com.example.test")),
   (V03.attr .Source, some (.str "http://x"))]

/-- The event of the scenario, its id present and empty. -/
def scenarioEvent : Event :=
  { attrs := fun k =>
      match k with
      | .SpecVersion => some (.str "0.3")
      | .ID => some (.str "")
      | .Typ => some (.str "com.example.test")
      | .Source => some (.str "http://x")
      | _ => none,
    extensions := [],
    data := none }

/-- A generated identifier. -/
def sampleUUID : String := "123e4567-e89b-12d3-a456-426614174000"

/-- A current time. -/
def sampleNow : Time := { sinceZero := 63700000000 }

/-- The state a run ends in, when it ended without a panic. -/
def stateOf {α : Type} : Except Fault (Option Error × α) → Option α
  | .ok (_, s) => some s
  | .error _ => none

/-- Whether one of the presented attributes has the kind. -/
def hasKind (k : Kind) (cs : List (Attribute × Any)) : Bool :=
  cs.any (fun c => c.1.kind == k)

/-- The version recorded after the attributes have been presented: that of the
last one, `ver` when none is presented. -/
def lastVersion (ver : Option Version) (cs : List (Attribute × Any)) : Option Version :=
  cs.foldl (fun _ c => some c.1.version) ver

/-! ### Storing encoders -/

/-- Storing an attribute in an event, the stored value being given by `φ` from
the kind, the presented value and the value held so far. -/
def Event.store (φ : Kind → Any → Any → Any) (e : Event) (c : Attribute × Any) : Event :=
  { e with attrs := Function.update e.attrs c.1.kind (φ c.1.kind c.2 (e.attrs c.1.kind)) }

/-- An encoder into an event whose `SetAttribute` stores by `φ` and never fails,
and whose `End` does nothing. -/
def Steps (enc : BinaryEncoder Event) (φ : Kind → Any → Any → Any) : Prop :=
  (∀ a v e, enc.SetAttribute (some a) v e = .ok (none, Event.store φ e (a, v))) ∧
    ∀ e, enc.End e = .ok (none, e)

/-- What an encoder storing by `φ` stores once wrapped by `UpdateAttribute(k, u)`. -/
def updateStep (k : Kind) (u : Any → Any) (φ : Kind → Any → Any → Any) :
    Kind → Any → Any → Any :=
  fun k1 v old =>
    if k1 = k then
      match u v with
      | some newVal => φ k1 (some newVal) old
      | none => old
    else φ k1 v old


/-- An updater that appends a tag to a string value and answers the tag alone
for any other value; it never answers nil. -/
def appendTag (tag : String) : Any → Any
  | some (.str s) => some (.str (s ++ tag))
  | _ => some (.str tag)

/-- An updater that answers nil for every value, asking for the attribute to be
removed. -/
def removeUpdater : Any → Any := fun _ => none

/-- A sample event context: it refuses the deletion of the id, which is
required to be a non-empty string, and accepts every other deletion. -/
def refuseID : Kind → Option Error
  | .ID => some (.other "id is required to be a non-empty string")
  | _ => none

/-- The error a run returns, when it ended without a panic. -/
def errorOf {α : Type} : Except Fault (Option Error × α) → Option (Option Error)
  | .ok (r, _) => some r
  | .error _ => none

/-- An event of version 0.3 with a subject. -/
def subjectEvent : Event :=
  { attrs := fun k =>
      match k with
      | .SpecVersion => some (.str "0.3")
      | .ID => some (.str "1")
      | .Typ => some (.str "com.example.test")
      | .Source => some (.str "http://x")
      | .Subject => some (.str "v")
      | _ => none,
    extensions := [],
    data := none }

/-! ## Transformer factories: structured mode and construction -/

/-- The interface `binding.StructuredEncoder`: its one method
`SetStructuredEvent(format, reader) error`, acting on the state `W`. -/
abbrev StructuredEncoder (W : Type) := Format → Reader → W → Option Error × W

/-- The method `addUUID.StructuredTransformer`; `none` is nil. -/
def addUUID.StructuredTransformer {W : Type} (_ : StructuredEncoder W) :
    Option (StructuredEncoder W) :=
  none

/-- The method `addTimeNow.StructuredTransformer`; `none` is nil. -/
def addTimeNow.StructuredTransformer {W : Type} (_ : StructuredEncoder W) :
    Option (StructuredEncoder W) :=
  none

/-- The method `updateAttributeTranscoderFactory.StructuredTransformer`; `none`
is nil. -/
def updateAttributeTranscoderFactory.StructuredTransformer {W : Type} (_ : Kind)
    (_ : Any → Any) (_ : StructuredEncoder W) : Option (StructuredEncoder W) :=
  none

/-- The interface value `addUUID.BinaryTransformer` returns, `none` being nil:
the pointer to a new `addUUIDTransformer`, given as the methods of the wrapper
and its state, `s` being the state of the embedded encoder. -/
def addUUID.BinaryTransformerValue {σ : Type} (uuid : String) (encoder : BinaryEncoder σ)
    (s : σ) : Option (BinaryEncoder (addUUIDTransformer σ) × addUUIDTransformer σ) :=
  some (addUUID.BinaryTransformer uuid encoder, addUUID.newTransformer s)

/-- The interface value `addTimeNow.BinaryTransformer` returns, `none` being
nil. -/
def addTimeNow.BinaryTransformerValue {σ : Type} (now : Time) (encoder : BinaryEncoder σ)
    (s : σ) : Option (BinaryEncoder (addTimeNowTransformer σ) × addTimeNowTransformer σ) :=
  some (addTimeNow.BinaryTransformer now encoder, addTimeNow.newTransformer s)

/-- The interface value `updateAttributeTranscoderFactory.BinaryTransformer`
returns, `none` being nil. -/
def updateAttributeTranscoderFactory.BinaryTransformerValue {σ : Type} (attributeKind : Kind)
    (updater : Any → Any) (encoder : BinaryEncoder σ) (s : σ) :
    Option (BinaryEncoder σ × σ) :=
  some (updateAttributeTranscoderFactory.BinaryTransformer attributeKind updater encoder, s)

/-- A caller that makes every `SetAttribute` call of the list in turn, whatever
error a call returns; a panic ends the run. -/
def BinaryMessage.setAll {σ : Type} (enc : BinaryEncoder σ) :
    List (Attribute × Any) → σ → Except Fault σ
  | [], s => .ok s
  | (a, v) :: rest, s =>
    match enc.SetAttribute (some a) v s with
    | .error f => .error f
    | .ok (_, s1) => BinaryMessage.setAll enc rest s1

/-- A sample version table, for spec version 0.1, in which no subject exists. -/
def V01 : Version :=
  { name := "0.1",
    names := [(.ID, "eventID"), (.Source, "source"), (.SpecVersion, "cloudEventsVersion"),
      (.Typ, "eventType"), (.DataContentType, "contentType"), (.DataSchema, "schemaURL"),
      (.Time, "eventTime")] }

/-- An event of version 0.1. -/
def oldEvent : Event :=
  { attrs := fun k =>
      match k with
      | .SpecVersion => some (.str "0.1")
      | .ID => some (.str "1")
      | .Typ => some (.str "com.example.test")
      | .Source => some (.str "http://x")
      | _ => none,
    extensions := [],
    data := none }

/-! ## The channel receiver -/

/-- A `context.Context` as `Receive` observes it: `Err` is what `ctx.Err()`
returns, which is not nil exactly when `ctx.Done()` is closed. -/
structure Context where
  Err : Option Error

/-- The error `io.EOF`. -/
def EOF : Error := .other "EOF"

/-- A channel of messages as a receive observes it: the values waiting in it, in
order (each an interface value, `none` being nil), and whether it is closed. -/
structure Chan (M : Type) where
  queue : List (Option M)
  closed : Bool

/-- What `Receive` returns, with the channel as the call leaves it. -/
structure Received (M : Type) where
  msg : Option M
  err : Option Error
  chan : Chan M

/-- The method `ChanReceiver.Receive`: the results it can return on the given
context and channel. The `select` takes any one of its cases that is ready:
`<-ctx.Done()` when the context is done, `<-r` when a value waits in the
channel or the channel is closed. With no case ready the call waits and the
list is empty. A nil context is `none`. -/
def ChanReceiver.Receive {M : Type} (ctx : Option Context) (r : Chan M) : List (Received M) :=
  match ctx with
  | none => [{ msg := none, err := some (.other "nil Context"), chan := r }]
  | some c =>
    (match c.Err with
      | some e => [{ msg := none, err := some e, chan := r }]
      | none => []) ++
    (match r.queue with
      | m :: rest => [{ msg := m, err := none, chan := { r with queue := rest } }]
      | [] => if r.closed then [{ msg := none, err := some EOF, chan := r }] else [])

/-! ## The HTTP request encoder -/

/-- A `net/http` `Header`: the values held under each canonical key. -/
abbrev http.Header := String → List String

/-- The method `Header.Add` of `net/http`; `canon` is the canonical form of a
key, `textproto.CanonicalMIMEHeaderKey`. -/
def http.Header.Add (canon : String → String) (h : http.Header) (key value : String) :
    http.Header :=
  Function.update h (canon key) (h (canon key) ++ [value])

/-- The method `Header.Set` of `net/http`. -/
def http.Header.Set (canon : String → String) (h : http.Header) (key value : String) :
    http.Header :=
  Function.update h (canon key) [value]

/-- The method `Header.Values` of `net/http`. -/
def http.Header.Values (canon : String → String) (h : http.Header) (key : String) :
    List String :=
  h (canon key)

/-- What the HTTP binding takes from outside `message_encoder.go`: the
canonical form of header keys, the package constants `prefix` (field `pfx`) and
`ContentType`, and the function `types.Format`. -/
structure http.Binding where
  canon : String → String
  pfx : String
  ContentType : String
  Format : Any → Except Error String

/-- The type `httpRequestEncoder`, an `http.Request`: its header and its body
(nil, `none`, or a reader). -/
structure httpRequestEncoder where
  Header : http.Header
  Body : Option Reader

/-- The method `httpRequestEncoder.SetStructuredEvent`. -/
def httpRequestEncoder.SetStructuredEvent (env : http.Binding) (format : Format)
    (event : Reader) (b : httpRequestEncoder) : Option Error × httpRequestEncoder :=
  (none, { Header := b.Header.Set env.canon env.ContentType format.MediaType,
           Body := some event })

/-- The method `httpRequestEncoder.SetData`. -/
def httpRequestEncoder.SetData (reader : Reader) (b : httpRequestEncoder) :
    Option Error × httpRequestEncoder :=
  (none, { b with Body := some reader })

/-- The method `httpRequestEncoder.SetAttribute`. -/
def httpRequestEncoder.SetAttribute (env : http.Binding) (attr : Option Attribute)
    (value : Any) (b : httpRequestEncoder) : Except Fault (Option Error × httpRequestEncoder) :=
  match env.Format value with
  | .error err => .ok (some err, b)
  | .ok s =>
    match attr with
    | none => .error .nilDereference
    | some a =>
      if a.kind = .DataContentType then
        .ok (none, { b with Header := b.Header.Add env.canon env.ContentType s })
      else
        .ok (none, { b with Header := b.Header.Add env.canon (env.pfx ++ a.Name) s })

/-- The method `httpRequestEncoder.SetExtension`. -/
def httpRequestEncoder.SetExtension (env : http.Binding) (name : String) (value : Any)
    (b : httpRequestEncoder) : Option Error × httpRequestEncoder :=
  match env.Format value with
  | .error err => (some err, b)
  | .ok s => (none, { b with Header := b.Header.Add env.canon (env.pfx ++ name) s })

/-! ### Fixtures for the HTTP request encoder -/

/-- A sample formatter: strings format to themselves, integers to their decimal
form, and a byte sequence or nil is rejected. -/
def sampleFormat : Any → Except Error String
  | some (.str s) => .ok s
  | some (.int n) => .ok (toString n)
  | some (.bool b) => .ok (if b then "true" else "false")
  | some (.timestamp _) => .ok "2020-01-01T00:00:00Z"
  | _ => .error (.other "types: cannot format value")

/-- A sample HTTP binding: keys kept as they are, prefix `ce-`. -/
def sampleBinding : http.Binding :=
  { canon := fun k => k, pfx := "ce-", ContentType := "Content-Type", Format := sampleFormat }

/-- A request without headers or body. -/
def emptyRequest : httpRequestEncoder :=
  { Header := fun _ => [], Body := none }

/-! ## The client -/

/-- The interface `transport.Transport`, as far as the client uses it, acting on
the state `W` of the transport. -/
structure Transport (W : Type) where
  Send : Event → W → (Option Event × Option Error) × W
  StartReceiver : W → Option Error × W
  StopReceiver : W → Option Error × W

/-- The struct `ceClient`; `R` is the type of the callbacks (`Receive`), and
`none` is nil for the transport and for the callback. -/
structure ceClient (W R : Type) where
  transport : Option (Transport W)
  receive : Option R
  eventDefaulterFns : List (Event → Event)

/-- The calls a client makes, in the order it makes them. -/
inductive ClientCall where
  | Defaulter (index : Nat) (event : Event)
  | Validate (event : Event)
  | TransportSend (event : Event)
  | TransportStartReceiver
  | TransportStopReceiver

/-- The defaulter loop of `ceClient.Send`: each function applied in turn to the
event, the calls recorded; `index` is the position of the first function. -/
def ceClient.applyDefaulters (index : Nat) :
    List (Event → Event) → Event → Event × List ClientCall
  | [], event => (event, [])
  | fn :: rest, event =>
    let r := ceClient.applyDefaulters (index + 1) rest (fn event)
    (r.1, .Defaulter index event :: r.2)

/-- The outcome of `ceClient.Send`: the returned event and error, the state of
the transport afterwards, and the calls made. -/
structure SendResult (W : Type) where
  event : Option Event
  err : Option Error
  world : W
  calls : List ClientCall

/-- The method `ceClient.Send`; `Validate` is the method `Event.Validate` of
package `cloudevents`. -/
def ceClient.Send {W R : Type} (Validate : Event → Option Error) (c : ceClient W R)
    (event : Event) (w : W) : SendResult W :=
  match c.transport with
  | none =>
    { event := none, err := some (.other "client not ready, transport not initialized"),
      world := w, calls := [] }
  | some transport =>
    let d := if c.eventDefaulterFns.length > 0 then
        ceClient.applyDefaulters 0 c.eventDefaulterFns event
      else (event, [])
    match Validate d.1 with
    | some err => { event := none, err := some err, world := w, calls := d.2 ++ [.Validate d.1] }
    | none =>
      let r := transport.Send d.1 w
      { event := r.1.1, err := r.1.2, world := r.2,
        calls := d.2 ++ [.Validate d.1, .TransportSend d.1] }

/-- The outcome of `StartReceiver` and of `StopReceiver`: the returned error,
the client and the state of the transport afterwards, and the calls made. -/
structure ReceiverResult (W R : Type) where
  err : Option Error
  client : ceClient W R
  world : W
  calls : List ClientCall

/-- The method `ceClient.StartReceiver`; `fn` is the callback, `none` being
nil. -/
def ceClient.StartReceiver {W R : Type} (c : ceClient W R) (fn : Option R) (w : W) :
    ReceiverResult W R :=
  match c.transport with
  | none =>
    { err := some (.other "client not ready, transport not initialized"),
      client := c, world := w, calls := [] }
  | some transport =>
    if c.receive.isSome then
      { err := some (.other "client already has a receiver"), client := c, world := w,
        calls := [] }
    else
      let r := transport.StartReceiver w
      { err := r.1, client := { c with receive := fn }, world := r.2,
        calls := [.TransportStartReceiver] }

/-- The method `ceClient.StopReceiver`. -/
def ceClient.StopReceiver {W R : Type} (c : ceClient W R) (w : W) : ReceiverResult W R :=
  match c.transport with
  | none =>
    { err := some (.other "client not ready, transport not initialized"),
      client := c, world := w, calls := [] }
  | some transport =>
    let r := transport.StopReceiver w
    { err := r.1, client := { c with receive := none }, world := r.2,
      calls := [.TransportStopReceiver] }

/-! ### Fixtures for the client -/

/-- A transport that counts the events it is given and answers nothing. -/
def countingTransport : Transport Nat where
  Send := fun _ w => ((none, none), w + 1)
  StartReceiver := fun w => (some (.other "listen failed"), w)
  StopReceiver := fun w => (some (.other "not started"), w)

/-- A validation that asks for a non-empty id. -/
def sampleValidate (e : Event) : Option Error :=
  if e.GetID = "" then some (.other "id: REQUIRED") else none

/-- A defaulter that gives the event an id when it has none. -/
def defaultID (e : Event) : Event :=
  (addUUID.EventTransformer sampleUUID e).2

/-- A defaulter that gives the event a time when it has none. -/
def defaultTime (e : Event) : Event :=
  (addTimeNow.EventTransformer sampleNow e).2

/-- A client on the counting transport with the two defaulters and no receiver;
callbacks are identified by a number. -/
def sampleClient : ceClient Nat Nat :=
  { transport := some countingTransport, receive := none,
    eventDefaulterFns := [defaultID, defaultTime] }

/-- The chain of defaulters as a composition: the event given to the first
function, its result to the second, and so on. -/
def composeDefaulters (fns : List (Event → Event)) (e : Event) : Event :=
  fns.foldl (fun ev fn => fn ev) e

/-! ## The SQL negate expression -/

/-- The panic of a failed type assertion, `val.(int32)` on a value of another
type. -/
inductive Panic where
  | interfaceConversion
  deriving DecidableEq, Repr

/-- The interface `cesql.Expression`: its method
`Evaluate(event) (interface{}, error)`. An `int32` value is a `Value.int`. -/
abbrev Expression := Event → Except Panic (Any × Option Error)

/-- Whether an integer is the value of an `int32`. -/
abbrev isInt32 (z : Int) : Prop := -2 ^ 31 ≤ z ∧ z < 2 ^ 31

/-- The `int32` that an integer result is stored as: the result modulo `2^32`,
taken between `-2^31` and `2^31 - 1`. -/
def wrapInt32 (z : Int) : Int := (z + 2 ^ 31) % 2 ^ 32 - 2 ^ 31

/-- Go unary minus on an `int32`. -/
def negInt32 (n : Int) : Int := wrapInt32 (-n)

/-- The method `negateExpression.Evaluate`; `child` is the field of the struct
and `Cast` is `runtime.Cast(val, runtime.IntegerType)`, with its two results. -/
def negateExpression.Evaluate (Cast : Any → Any × Option Error) (child : Expression) :
    Expression :=
  fun event =>
    match child event with
    | .error p => .error p
    | .ok (_, some err) => .ok (none, some err)
    | .ok (val, none) =>
      match Cast val with
      | (_, some err) => .ok (none, some err)
      | (some (.int n), none) => .ok (some (.int (negInt32 n)), none)
      | (_, none) => .error .interfaceConversion

/-- The function `NewNegateExpression`. -/
def NewNegateExpression (Cast : Any → Any × Option Error) (child : Expression) : Expression :=
  negateExpression.Evaluate Cast child

/-! ### Fixtures for the negate expression -/

/-- A sample cast to the integer type: integers are kept, the strings `0` and
`7` and the booleans are read, and every other value is refused. -/
def sampleCast : Any → Any × Option Error
  | some (.int n) => (some (.int n), none)
  | some (.str "0") => (some (.int 0), none)
  | some (.str "7") => (some (.int 7), none)
  | some (.bool true) => (some (.int 1), none)
  | some (.bool false) => (some (.int 0), none)
  | v => (v, some (.other "cast: value is not an integer"))

/-- An expression that evaluates to the smallest `int32`. -/
def minInt32Literal : Expression := fun _ => .ok (some (.int (-2147483648)), none)

/-- An expression that evaluates to the integer 5. -/
def fiveLiteral : Expression := fun _ => .ok (some (.int 5), none)

/-- An expression whose evaluation fails. -/
def failingExpression : Expression := fun _ => .ok (none, some (.other "missing attribute"))

/-! ## The port in a context -/

/-- The keys of context values: `portKey`, of the unexported type
`portKeyType`, which equals no key of another type, and every other key. -/
inductive ContextKey where
  | portKey
  | other (name : String)
  deriving DecidableEq, Repr

/-- What a context value holds when it is not nil: a Go `int`, or a value of
another type. -/
inductive ContextValue where
  | int (n : Int)
  | other (description : String)
  deriving DecidableEq, Repr

/-- A `context.Context` that is not nil, as far as its values go: the pairs
stored by `context.WithValue`, the most recent first. -/
abbrev ValueContext := List (ContextKey × Option ContextValue)

/-- The function `context.WithValue` of the standard library. -/
def context.WithValue (ctx : ValueContext) (key : ContextKey) (val : Option ContextValue) :
    ValueContext :=
  (key, val) :: ctx

/-- The method `Context.Value` of the standard library: the value stored most
recently under the key, nil when there is none. -/
def context.Value (ctx : ValueContext) (key : ContextKey) : Option ContextValue :=
  match ctx.lookup key with
  | some v => v
  | none => none

/-- The function `ContextWithPort`. -/
def ContextWithPort (ctx : ValueContext) (port : Int) : ValueContext :=
  context.WithValue ctx .portKey (some (.int port))

/-- The function `PortFromContext`. -/
def PortFromContext (ctx : ValueContext) : Int :=
  match context.Value ctx .portKey with
  | some (.int port) => port
  | _ => 0

/-- Whether `ContextWithPort` was never applied: nothing is stored under
`portKey`, under which no other function stores. -/
def neverPorted (ctx : ValueContext) : Prop := ∀ kv ∈ ctx, kv.1 ≠ ContextKey.portKey

/-- A context holding one value of another package. -/
def foreignContext : ValueContext := [(.other "request-id", some (.other "abc"))]

/-! ## Properties -/

/-- The outcome of `Send` when the chain gives no structured builder. -/
theorem ExSender.send_of_nil {W : Type} (s : ExSender W) (m : Message W) (w : W)
    (hb : s.structuredBuilder = none) :
    s.Send m w = { err := (m.Event s.eventBuilder w).1, world := (m.Event s.eventBuilder w).2,
                   calls := [.Event] } := by
  unfold ExSender.Send
  rw [hb]

/-- The outcome of `Send` when the structured transfer succeeds. -/
theorem ExSender.send_of_structured {W : Type} (s : ExSender W) (m : Message W) (w w1 : W)
    (b : StructuredMessageBuilder W) (hb : s.structuredBuilder = some b)
    (hm : m.Structured b w = (none, w1)) :
    s.Send m w = { err := none, world := w1, calls := [.Structured] } := by
  unfold ExSender.Send
  rw [hb]
  simp only [hm]

/-- The outcome of `Send` when the structured transfer is declined. -/
theorem ExSender.send_of_declined {W : Type} (s : ExSender W) (m : Message W) (w w1 : W)
    (b : StructuredMessageBuilder W) (hb : s.structuredBuilder = some b)
    (hm : m.Structured b w = (some .ErrNotStructured, w1)) :
    s.Send m w = { err := (m.Event s.eventBuilder w1).1, world := (m.Event s.eventBuilder w1).2,
                   calls := [.Structured, .Event] } := by
  unfold ExSender.Send
  rw [hb]
  simp only [hm, ne_eq, not_true_eq_false, if_false]

/-- The outcome of `Send` when the structured transfer breaks with a hard error. -/
theorem ExSender.send_of_failed {W : Type} (s : ExSender W) (m : Message W) (w w1 : W)
    (b : StructuredMessageBuilder W) (err : Error) (hb : s.structuredBuilder = some b)
    (hm : m.Structured b w = (some err, w1)) (he : err ≠ .ErrNotStructured) :
    s.Send m w = { err := some err, world := w1, calls := [.Structured] } := by
  unfold ExSender.Send
  rw [hb]
  simp only [hm, ne_eq, he, not_false_eq_true, if_true]

/-- The calls `ExSender.Send` records: `m.Structured` at most once and only when
the structured transcoder of the chain is not nil, `m.Event` exactly when that
transcoder is nil or `m.Structured` returned `ErrNotStructured`. -/
theorem ExSender.send_recorded_calls {W : Type} (s : ExSender W) (m : Message W) (w : W) :
    (s.Send m w).calls.count .Structured ≤ 1 ∧
    (s.Send m w).calls.count .Event ≤ 1 ∧
    (MessageCall.Structured ∈ (s.Send m w).calls ↔ s.structuredBuilder.isSome) ∧
    (MessageCall.Event ∈ (s.Send m w).calls ↔
      (s.structuredBuilder = none ∨
        ∃ b, s.structuredBuilder = some b ∧ (m.Structured b w).1 = some .ErrNotStructured)) ∧
    (∀ b, s.structuredBuilder = some b → (m.Structured b w).1 = none →
      (s.Send m w).err = none ∧ MessageCall.Event ∉ (s.Send m w).calls) := by
  cases hb : s.structuredBuilder with
  | none =>
    rw [ExSender.send_of_nil s m w hb]
    refine ⟨by simp, by simp, by simp, ⟨fun _ => Or.inl rfl, fun _ => by simp⟩, ?_⟩
    intro b h
    cases h
  | some b =>
    rcases hm : m.Structured b w with ⟨r, w1⟩
    cases r with
    | none =>
      rw [ExSender.send_of_structured s m w w1 b hb hm]
      refine ⟨by simp, by simp, ⟨fun _ => rfl, fun _ => by simp⟩, ⟨?_, ?_⟩, ?_⟩
      · intro h
        exact absurd h (by simp)
      · rintro (h | ⟨b1, h1, h2⟩)
        · cases h
        · cases h1
          rw [hm] at h2
          cases h2
      · intro b1 _ _
        exact ⟨rfl, by simp⟩
    | some err =>
      by_cases he : err = .ErrNotStructured
      · subst he
        rw [ExSender.send_of_declined s m w w1 b hb hm]
        refine ⟨by simp, by simp, ⟨fun _ => rfl, fun _ => by simp⟩, ⟨?_, ?_⟩, ?_⟩
        · intro _
          exact Or.inr ⟨b, rfl, by rw [hm]⟩
        · intro _
          simp
        · intro b1 h1 h2
          cases h1
          rw [hm] at h2
          cases h2
      · rw [ExSender.send_of_failed s m w w1 b err hb hm he]
        refine ⟨by simp, by simp, ⟨fun _ => rfl, fun _ => by simp⟩, ⟨?_, ?_⟩, ?_⟩
        · intro h
          exact absurd h (by simp)
        · rintro (h | ⟨b1, h1, h2⟩)
          · cases h
          · cases h1
            rw [hm] at h2
            exact absurd (Option.some.inj h2) he
        · intro b1 h1 h2
          cases h1
          rw [hm] at h2
          cases h2

/-- C1: `ExSender.Send` calls `m.Structured` at most once and only when the
structured transcoder of the chain is not nil; it calls `m.Event` exactly when
that transcoder is nil or `m.Structured` returned `ErrNotStructured`; and when
`m.Structured` returns nil, `Send` returns nil without calling `m.Event`. What
`Send` returns and the state it leaves are those of the calls made: with a nil
transcoder, of `m.Event` on the state `Send` was given; after a declined
structured transfer, of `m.Event` on the state `m.Structured` left; after a
structured transfer that succeeded or broke, of `m.Structured` alone. -/
theorem ExSender.send_call_discipline {W : Type} (s : ExSender W) (m : Message W) (w : W) :
    (s.Send m w).calls.count .Structured ≤ 1 ∧
    (s.Send m w).calls.count .Event ≤ 1 ∧
    (MessageCall.Structured ∈ (s.Send m w).calls ↔ s.structuredBuilder.isSome) ∧
    (MessageCall.Event ∈ (s.Send m w).calls ↔
      (s.structuredBuilder = none ∨
        ∃ b, s.structuredBuilder = some b ∧ (m.Structured b w).1 = some .ErrNotStructured)) ∧
    (∀ b, s.structuredBuilder = some b → (m.Structured b w).1 = none →
      (s.Send m w).err = none ∧ MessageCall.Event ∉ (s.Send m w).calls) ∧
    (s.structuredBuilder = none →
      (s.Send m w).err = (m.Event s.eventBuilder w).1 ∧
      (s.Send m w).world = (m.Event s.eventBuilder w).2 ∧
      (s.Send m w).calls = [.Event]) ∧
    (∀ b, s.structuredBuilder = some b → (m.Structured b w).1 = none →
      (s.Send m w).world = (m.Structured b w).2 ∧
      (s.Send m w).calls = [.Structured]) ∧
    (∀ b, s.structuredBuilder = some b → (m.Structured b w).1 = some .ErrNotStructured →
      (s.Send m w).err = (m.Event s.eventBuilder (m.Structured b w).2).1 ∧
      (s.Send m w).world = (m.Event s.eventBuilder (m.Structured b w).2).2 ∧
      (s.Send m w).calls = [.Structured, .Event]) ∧
    (∀ b e, s.structuredBuilder = some b → (m.Structured b w).1 = some e →
      e ≠ .ErrNotStructured →
      (s.Send m w).err = some e ∧ (s.Send m w).world = (m.Structured b w).2 ∧
      (s.Send m w).calls = [.Structured]) := by
  have hold := ExSender.send_recorded_calls s m w
  refine ⟨hold.1, hold.2.1, hold.2.2.1, hold.2.2.2.1, hold.2.2.2.2, ?_, ?_, ?_, ?_⟩
  · intro hb
    rw [ExSender.send_of_nil s m w hb]
    exact ⟨rfl, rfl, rfl⟩
  · intro b hb hm
    rcases hs : m.Structured b w with ⟨r, w1⟩
    rw [hs] at hm
    cases hm
    rw [ExSender.send_of_structured s m w w1 b hb hs]
    exact ⟨rfl, rfl⟩
  · intro b hb hm
    rcases hs : m.Structured b w with ⟨r, w1⟩
    rw [hs] at hm
    cases hm
    rw [ExSender.send_of_declined s m w w1 b hb hs]
    exact ⟨rfl, rfl, rfl⟩
  · intro b e hb hm he
    rcases hs : m.Structured b w with ⟨r, w1⟩
    rw [hs] at hm
    cases hm
    rw [ExSender.send_of_failed s m w w1 b e hb hs he]
    exact ⟨rfl, rfl, rfl⟩

/-- Witness for C1: a message that records in the state the calls it receives,
sent by a sender without transcoders: the message has received `Structured`,
then `Event`, as `Send` records. -/
theorem ExSender.send_call_discipline_witness :
    (silentSender.Send recordingMessage []).err = none ∧
    (silentSender.Send recordingMessage []).world = [.Structured, .Event] ∧
    (silentSender.Send recordingMessage []).calls = [.Structured, .Event] :=
  (ExSender.send_call_discipline silentSender recordingMessage []).2.2.2.2.2.2.2.1
    silentSender.Event rfl rfl

/-- C2: when the structured transcoder is not nil and `m.Structured` returns
an error other than `ErrNotStructured`, `Send` returns exactly that error and
does not call `m.Event`. -/
theorem ExSender.send_hard_error_aborts {W : Type} (s : ExSender W) (m : Message W) (w : W)
    (b : StructuredMessageBuilder W) (e : Error)
    (hb : s.structuredBuilder = some b)
    (hm : (m.Structured b w).1 = some e)
    (he : e ≠ .ErrNotStructured) :
    (s.Send m w).err = some e ∧ MessageCall.Event ∉ (s.Send m w).calls := by
  rcases hs : m.Structured b w with ⟨r, w1⟩
  rw [hs] at hm
  cases hm
  rw [ExSender.send_of_failed s m w w1 b e hb hs he]
  exact ⟨rfl, by simp⟩

/-- Witness for C2: a sender without transcoders and a message whose structured
transfer breaks. -/
theorem ExSender.send_hard_error_aborts_witness :
    plainSender.structuredBuilder = some plainSender.Event ∧
    (brokenMessage.Structured plainSender.Event []).1 = some (.other "read failed") ∧
    Error.other "read failed" ≠ .ErrNotStructured ∧
    (plainSender.Send brokenMessage []).err = some (.other "read failed") ∧
    MessageCall.Event ∉ (plainSender.Send brokenMessage []).calls :=
  ⟨rfl, rfl, by decide,
    ExSender.send_hard_error_aborts plainSender brokenMessage [] plainSender.Event
      (.other "read failed") rfl rfl (by decide)⟩

/-- C3, as stated, fails: a message that declines structured mode and whose
`Event` answers `ErrNotBinary` makes `Send` return that mode-decline signal. -/
theorem ExSender.send_returns_decline_signal :
    isModeDecline (plainSender.Send decliningMessage []).err = true := by
  rfl

/-- C3, amended: when `m.Structured`, called with the structured transcoder,
does not return `ErrNotBinary` and `m.Event`, called with the event transcoder,
does not return a mode-decline signal, `Send` returns no mode-decline signal:
an `ErrNotStructured` coming from `m.Structured` is never what `Send` returns. -/
theorem ExSender.send_no_decline_signal {W : Type} (s : ExSender W) (m : Message W) (w : W)
    (hS : ∀ b, s.structuredBuilder = some b → (m.Structured b w).1 ≠ some .ErrNotBinary)
    (hE : ∀ w0, isModeDecline (m.Event s.eventBuilder w0).1 = false) :
    isModeDecline (s.Send m w).err = false := by
  cases hb : s.structuredBuilder with
  | none =>
    rw [ExSender.send_of_nil s m w hb]
    exact hE _
  | some b =>
    rcases hm : m.Structured b w with ⟨r, w1⟩
    cases r with
    | none =>
      rw [ExSender.send_of_structured s m w w1 b hb hm]
      rfl
    | some err =>
      by_cases he : err = .ErrNotStructured
      · subst he
        rw [ExSender.send_of_declined s m w w1 b hb hm]
        exact hE _
      · rw [ExSender.send_of_failed s m w w1 b err hb hm he]
        have h1 := hS b hb
        rw [hm] at h1
        cases err with
        | ErrNotStructured => exact absurd rfl he
        | ErrNotBinary => exact absurd rfl h1
        | other msg => rfl

/-- Witness for C3, amended: the example message with a decoder that accepts
every document, sent by a sender writing to a log. -/
theorem ExSender.send_no_decline_signal_witness :
    isModeDecline (plainSender.Send (ExMessage trivialUnmarshal [123, 125]) []).err = false :=
  ExSender.send_no_decline_signal plainSender (ExMessage trivialUnmarshal [123, 125]) []
    (fun b hb => by
      have h : b = plainSender.Event := (Option.some.inj hb).symm
      subst h
      intro h2
      cases h2)
    (fun w0 => rfl)

/-! ### The metadata wrappers on the binary path -/

/-- The recorded version is that of the last attribute presented. -/
theorem lastVersion_eq_getLast (ver : Option Version) (cs : List (Attribute × Any))
    (hne : cs ≠ []) : lastVersion ver cs = some (cs.getLast hne).1.version := by
  induction cs generalizing ver with
  | nil => exact absurd rfl hne
  | cons c rest ih =>
    cases rest with
    | nil => rfl
    | cons d rest2 =>
      have h := ih (some c.1.version) (by simp)
      simpa [lastVersion] using h

/-- A logged encoder appends the call and answers as the encoder does. -/
theorem logged_setAttribute {σ : Type} (enc : BinaryEncoder σ) (a : Option Attribute) (v : Any)
    (s s1 : σ) (log : List EncoderCall) (r : Option Error)
    (h : enc.SetAttribute a v s = .ok (r, s1)) :
    (logged enc).SetAttribute a v (s, log) = .ok (r, (s1, log ++ [.SetAttribute a v])) := by
  simp only [logged, h]

/-- One `SetAttribute` on the `AddUUID` wrapper: the call is forwarded as it
is, the version recorded and the flag raised on an id. -/
theorem addUUID.setAttribute_step {σ : Type} (uuid : String) (inner : BinaryEncoder σ)
    (a : Attribute) (v : Any) (s s1 : σ) (ver : Option Version) (fnd : Bool) (r : Option Error)
    (h : inner.SetAttribute (some a) v s = .ok (r, s1)) :
    (addUUID.BinaryTransformer uuid inner).SetAttribute (some a) v
        { encoder := s, version := ver, found := fnd } =
      .ok (r, { encoder := s1, version := some a.version, found := fnd || (a.kind == .ID) }) := by
  by_cases hk : a.kind = .ID
  · simp [addUUID.BinaryTransformer, addUUIDTransformer.SetAttribute, hk, h]
  · simp [addUUID.BinaryTransformer, addUUIDTransformer.SetAttribute, hk, h]

/-- The method `End` of the `AddUUID` wrapper once an id was seen: nothing is done. -/
theorem addUUID.end_found {σ : Type} (uuid : String) (inner : BinaryEncoder σ) (s : σ)
    (ver : Option Version) :
    (addUUID.BinaryTransformer uuid inner).End { encoder := s, version := ver, found := true } =
      .ok (none, { encoder := s, version := ver, found := true }) := by
  simp [addUUID.BinaryTransformer, addUUIDTransformer.End]

/-- The method `End` of the `AddUUID` wrapper when no id was seen: the id attribute of the
recorded version is set on the inner encoder with the generated value. -/
theorem addUUID.end_inject {σ : Type} (uuid : String) (inner : BinaryEncoder σ) (s s1 : σ)
    (v : Version) (r : Option Error)
    (h : inner.SetAttribute (v.AttributeFromKind .ID) (some (.str uuid)) s = .ok (r, s1)) :
    (addUUID.BinaryTransformer uuid inner).End
        { encoder := s, version := some v, found := false } =
      .ok (r, { encoder := s1, version := some v, found := false }) := by
  simp [addUUID.BinaryTransformer, addUUIDTransformer.End, h]

/-- Presenting attributes to the `AddUUID` wrapper around an encoder that never
fails: every call reaches the encoder unchanged and in order. -/
theorem addUUID.emit_logged {σ : Type} (uuid : String) (enc : BinaryEncoder σ)
    (henc : ∀ a v s, ∃ s1, enc.SetAttribute a v s = .ok (none, s1))
    (cs : List (Attribute × Any)) (s : σ) (log : List EncoderCall) (ver : Option Version)
    (fnd : Bool) :
    ∃ s1, BinaryMessage.emit (addUUID.BinaryTransformer uuid (logged enc)) cs
        { encoder := (s, log), version := ver, found := fnd } =
      .ok (none,
        { encoder := (s1, log ++ cs.map (fun c => EncoderCall.SetAttribute (some c.1) c.2)),
          version := lastVersion ver cs,
          found := fnd || hasKind .ID cs }) := by
  induction cs generalizing s log ver fnd with
  | nil => exact ⟨s, by simp [BinaryMessage.emit, lastVersion, hasKind]⟩
  | cons c rest ih =>
    obtain ⟨a, v⟩ := c
    obtain ⟨s1, hs1⟩ := henc (some a) v s
    obtain ⟨s2, hs2⟩ := ih s1 (log ++ [.SetAttribute (some a) v]) (some a.version)
      (fnd || (a.kind == .ID))
    refine ⟨s2, ?_⟩
    rw [BinaryMessage.emit,
      addUUID.setAttribute_step uuid (logged enc) a v (s, log) _ ver fnd none
        (logged_setAttribute enc (some a) v s s1 log none hs1)]
    simp only [hs2]
    simp [lastVersion, hasKind, Bool.or_assoc]

/-- C4, evaluated on the scenario (specversion, type and source presented,
then `End`): whichever of the two wrappers is the outer one injects its
attribute, and the inner one injects nothing, its `End` never being called. The
destination receives an id and no time in one order, a time and no id in the
other. -/
theorem addUUID_addTimeNow_chain_injects_one :
    (stateOf (BinaryMessage.Binary
        (addUUID.BinaryTransformer sampleUUID (addTimeNow.BinaryTransformer sampleNow recorder))
        scenarioAttributes
        (addUUID.newTransformer (addTimeNow.newTransformer ((), []))))).map
      (fun b => b.encoder.encoder.2) =
      some [.SetAttribute (some (V03.attr .SpecVersion)) (some (.str "0.3")),
            .SetAttribute (some (V03.attr .Typ)) (some (.str "com.example.test")),
            .SetAttribute (some (V03.attr .Source)) (some (.str "http://x")),
            .SetAttribute (some (V03.attr .ID)) (some (.str sampleUUID))] ∧
    (stateOf (BinaryMessage.Binary
        (addTimeNow.BinaryTransformer sampleNow (addUUID.BinaryTransformer sampleUUID recorder))
        scenarioAttributes
        (addTimeNow.newTransformer (addUUID.newTransformer ((), []))))).map
      (fun b => b.encoder.encoder.2) =
      some [.SetAttribute (some (V03.attr .SpecVersion)) (some (.str "0.3")),
            .SetAttribute (some (V03.attr .Typ)) (some (.str "com.example.test")),
            .SetAttribute (some (V03.attr .Source)) (some (.str "http://x")),
            .SetAttribute (some (V03.attr .Time)) (some (.timestamp sampleNow))] :=
  ⟨rfl, rfl⟩

/-- C5, evaluated: after `SetAttribute` and `End` on either wrapper the inner
encoder has received the attribute (and, when the wrapper injects, the
injected one) but no `End`: the wrappers never call `End` of the inner
encoder. -/
theorem addUUID_addTimeNow_end_not_delegated :
    (stateOf (BinaryMessage.Binary (addUUID.BinaryTransformer sampleUUID recorder)
        [(V03.attr .ID, some (.str "abc"))] (addUUID.newTransformer ((), [])))).map
      (fun b => b.encoder.2) =
      some [.SetAttribute (some (V03.attr .ID)) (some (.str "abc"))] ∧
    (stateOf (BinaryMessage.Binary (addUUID.BinaryTransformer sampleUUID recorder)
        [(V03.attr .Typ, some (.str "t"))] (addUUID.newTransformer ((), [])))).map
      (fun b => b.encoder.2) =
      some [.SetAttribute (some (V03.attr .Typ)) (some (.str "t")),
            .SetAttribute (some (V03.attr .ID)) (some (.str sampleUUID))] ∧
    (stateOf (BinaryMessage.Binary (addTimeNow.BinaryTransformer sampleNow recorder)
        [(V03.attr .Time, some (.timestamp sampleNow))]
        (addTimeNow.newTransformer ((), [])))).map
      (fun b => b.encoder.2) =
      some [.SetAttribute (some (V03.attr .Time)) (some (.timestamp sampleNow))] ∧
    (stateOf (BinaryMessage.Binary (addTimeNow.BinaryTransformer sampleNow recorder)
        [(V03.attr .Typ, some (.str "t"))] (addTimeNow.newTransformer ((), [])))).map
      (fun b => b.encoder.2) =
      some [.SetAttribute (some (V03.attr .Typ)) (some (.str "t")),
            .SetAttribute (some (V03.attr .Time)) (some (.timestamp sampleNow))] ∧
    (stateOf (BinaryMessage.Binary recorder [(V03.attr .Typ, some (.str "t"))] ((), []))).map
      (fun b => b.2) =
      some [.SetAttribute (some (V03.attr .Typ)) (some (.str "t")), .End] :=
  ⟨rfl, rfl, rfl, rfl, rfl⟩

/-- C6: a non-empty sequence of `SetAttribute` calls on the `AddUUID` wrapper
followed by `End`, the inner encoder never failing: the inner encoder receives
exactly those calls, in order and unchanged, followed by one `SetAttribute` of
the id attribute of the last call's version exactly when no call had kind id. -/
theorem addUUID.binary_frame {σ : Type} (uuid : String) (enc : BinaryEncoder σ)
    (henc : ∀ a v s, ∃ s1, enc.SetAttribute a v s = .ok (none, s1))
    (s0 : σ) (cs : List (Attribute × Any)) (hne : cs ≠ []) :
    ∃ b, BinaryMessage.Binary (addUUID.BinaryTransformer uuid (logged enc)) cs
        (addUUID.newTransformer (s0, [])) = .ok (none, b) ∧
      b.encoder.2 = cs.map (fun c => EncoderCall.SetAttribute (some c.1) c.2) ++
        (if hasKind .ID cs then []
         else [.SetAttribute ((cs.getLast hne).1.version.AttributeFromKind .ID)
                 (some (.str uuid))]) := by
  obtain ⟨s1, h1⟩ := addUUID.emit_logged uuid enc henc cs s0 [] none false
  unfold BinaryMessage.Binary addUUID.newTransformer
  rw [h1]
  simp only [lastVersion_eq_getLast none cs hne, Bool.false_or, List.nil_append]
  cases hk : hasKind .ID cs with
  | true =>
    rw [addUUID.end_found]
    exact ⟨_, rfl, by simp⟩
  | false =>
    obtain ⟨s2, h2⟩ := henc ((cs.getLast hne).1.version.AttributeFromKind .ID)
      (some (.str uuid)) s1
    rw [addUUID.end_inject uuid (logged enc) _ _ _ none
      (logged_setAttribute enc _ _ s1 s2 _ none h2)]
    exact ⟨_, rfl, by simp⟩

/-- Witness for C6: the scenario attributes presented to the wrapper around the
recording encoder. -/
theorem addUUID.binary_frame_witness :
    ∃ b, BinaryMessage.Binary (addUUID.BinaryTransformer sampleUUID (logged nullEncoder))
        scenarioAttributes (addUUID.newTransformer ((), [])) = .ok (none, b) ∧
      b.encoder.2 = scenarioAttributes.map (fun c => EncoderCall.SetAttribute (some c.1) c.2) ++
        (if hasKind .ID scenarioAttributes then []
         else [.SetAttribute
                 ((scenarioAttributes.getLast (by decide)).1.version.AttributeFromKind .ID)
                 (some (.str sampleUUID))]) :=
  addUUID.binary_frame sampleUUID nullEncoder (fun _ _ s => ⟨s, rfl⟩) () scenarioAttributes
    (by decide)

/-! ### The metadata transformers on the event path -/

/-- Reading the id after setting it. -/
theorem Event.getID_setID (e : Event) (id : String) : (e.SetID id).2.GetID = id := by
  simp [Event.SetID, Event.GetID]

/-- Reading the time after setting it. -/
theorem Event.getTime_setTime (e : Event) (t : Time) : (e.SetTime t).2.GetTime = t := by
  simp [Event.SetTime, Event.GetTime]

/-- C7: the `AddUUID` event transformer returns nil, leaves every attribute
other than the id, the extensions and the payload as they are, leaves the whole
event as it is when the id is not empty, and sets a non-empty id when it is
empty; the `AddTimeNow` event transformer does the same for the time. Either
one applied a second time changes nothing. Here `uuid` and `now` are what
`uuid.New().String()` and `time.Now()` give, a non-empty string and a
non-zero time. -/
theorem addUUID_addTimeNow_event_frame (uuid : String) (now : Time) (e : Event)
    (hu : uuid ≠ "") (hn : now.IsZero = false) :
    ((addUUID.EventTransformer uuid e).1 = none ∧
      (∀ k, k ≠ Kind.ID → (addUUID.EventTransformer uuid e).2.attrs k = e.attrs k) ∧
      (addUUID.EventTransformer uuid e).2.extensions = e.extensions ∧
      (addUUID.EventTransformer uuid e).2.data = e.data ∧
      (e.GetID ≠ "" → addUUID.EventTransformer uuid e = (none, e)) ∧
      (e.GetID = "" → (addUUID.EventTransformer uuid e).2.GetID = uuid) ∧
      (addUUID.EventTransformer uuid e).2.GetID ≠ "" ∧
      (∀ uuid2, addUUID.EventTransformer uuid2 (addUUID.EventTransformer uuid e).2 =
        (none, (addUUID.EventTransformer uuid e).2))) ∧
    ((addTimeNow.EventTransformer now e).1 = none ∧
      (∀ k, k ≠ Kind.Time → (addTimeNow.EventTransformer now e).2.attrs k = e.attrs k) ∧
      (addTimeNow.EventTransformer now e).2.extensions = e.extensions ∧
      (addTimeNow.EventTransformer now e).2.data = e.data ∧
      (e.GetTime.IsZero = false → addTimeNow.EventTransformer now e = (none, e)) ∧
      (e.GetTime.IsZero = true → (addTimeNow.EventTransformer now e).2.GetTime = now) ∧
      (addTimeNow.EventTransformer now e).2.GetTime.IsZero = false ∧
      (∀ now2, addTimeNow.EventTransformer now2 (addTimeNow.EventTransformer now e).2 =
        (none, (addTimeNow.EventTransformer now e).2))) := by
  constructor
  · have hid : (addUUID.EventTransformer uuid e).2.GetID ≠ "" := by
      unfold addUUID.EventTransformer
      by_cases h : e.GetID = ""
      · rw [if_pos h, Event.getID_setID]
        exact hu
      · rw [if_neg h]
        exact h
    refine ⟨?_, ?_, ?_, ?_, ?_, ?_, hid, ?_⟩
    · unfold addUUID.EventTransformer
      by_cases h : e.GetID = "" <;> simp [h, Event.SetID]
    · intro k hk
      unfold addUUID.EventTransformer
      by_cases h : e.GetID = "" <;> simp [h, Event.SetID, Function.update, hk]
    · unfold addUUID.EventTransformer
      by_cases h : e.GetID = "" <;> simp [h, Event.SetID]
    · unfold addUUID.EventTransformer
      by_cases h : e.GetID = "" <;> simp [h, Event.SetID]
    · intro h
      simp [addUUID.EventTransformer, h]
    · intro h
      simp [addUUID.EventTransformer, h, Event.getID_setID]
    · intro uuid2
      generalize (addUUID.EventTransformer uuid e).2 = e1 at hid
      simp [addUUID.EventTransformer, hid]
  · have htm : (addTimeNow.EventTransformer now e).2.GetTime.IsZero = false := by
      unfold addTimeNow.EventTransformer
      by_cases h : e.GetTime.IsZero = true
      · rw [if_pos h, Event.getTime_setTime]
        exact hn
      · rw [if_neg h]
        simpa using h
    refine ⟨?_, ?_, ?_, ?_, ?_, ?_, htm, ?_⟩
    · unfold addTimeNow.EventTransformer
      by_cases h : e.GetTime.IsZero = true <;> simp [h, Event.SetTime]
    · intro k hk
      unfold addTimeNow.EventTransformer
      by_cases h : e.GetTime.IsZero = true <;> simp [h, Event.SetTime, Function.update, hk]
    · unfold addTimeNow.EventTransformer
      by_cases h : e.GetTime.IsZero = true <;> simp [h, Event.SetTime]
    · unfold addTimeNow.EventTransformer
      by_cases h : e.GetTime.IsZero = true <;> simp [h, Event.SetTime]
    · intro h
      simp [addTimeNow.EventTransformer, h]
    · intro h
      simp [addTimeNow.EventTransformer, h, Event.getTime_setTime]
    · intro now2
      generalize (addTimeNow.EventTransformer now e).2 = e1 at htm
      simp [addTimeNow.EventTransformer, htm]

/-- C8, evaluated on the scenario event, whose id is present and empty: on the
binary path the wrapper sees an attribute of kind id, injects nothing, and the
destination is left with the empty id; on the event path the transformer sets
the generated id. -/
theorem addUUID_empty_id_binary_differs :
    (stateOf (BinaryMessage.Binary (addUUID.BinaryTransformer sampleUUID recorder)
        (Event.binaryAttributes V03 scenarioEvent Kind.all)
        (addUUID.newTransformer ((), [])))).map (fun b => b.encoder.2) =
      some [.SetAttribute (some (V03.attr .ID)) (some (.str "")),
            .SetAttribute (some (V03.attr .Source)) (some (.str "http://x")),
            .SetAttribute (some (V03.attr .SpecVersion)) (some (.str "0.3")),
            .SetAttribute (some (V03.attr .Typ)) (some (.str "com.example.test"))] ∧
    (stateOf (BinaryMessage.Binary (addUUID.BinaryTransformer sampleUUID eventEncoder)
        (Event.binaryAttributes V03 scenarioEvent Kind.all)
        (addUUID.newTransformer Event.empty))).map (fun b => b.encoder.GetID) = some "" ∧
    scenarioEvent.GetID = "" ∧
    (addUUID.EventTransformer sampleUUID scenarioEvent).2.GetID = sampleUUID :=
  ⟨rfl, rfl, rfl, rfl⟩

/-- Witness for C7: the scenario event, a sample identifier and a sample time. -/
theorem addUUID_addTimeNow_event_frame_witness :
    sampleUUID ≠ "" ∧ sampleNow.IsZero = false ∧
    (addUUID.EventTransformer sampleUUID scenarioEvent).2.GetID ≠ "" ∧
    (addTimeNow.EventTransformer sampleNow scenarioEvent).2.GetTime.IsZero = false :=
  ⟨by decide, rfl,
    (addUUID_addTimeNow_event_frame sampleUUID sampleNow scenarioEvent (by decide)
      rfl).1.2.2.2.2.2.2.1,
    (addUUID_addTimeNow_event_frame sampleUUID sampleNow scenarioEvent (by decide)
      rfl).2.2.2.2.2.2.2.1⟩

/-! ### `UpdateAttribute` on the binary and on the event path -/

/-- The event-building destination stores what it is given. -/
theorem steps_eventEncoder : Steps eventEncoder (fun _ v _ => v) :=
  ⟨fun _ _ _ => rfl, fun _ => rfl⟩

/-- Storing the value already held changes nothing. -/
theorem Event.store_same (φ : Kind → Any → Any → Any) (e : Event) (a : Attribute) (v : Any)
    (h : φ a.kind v (e.attrs a.kind) = e.attrs a.kind) : Event.store φ e (a, v) = e := by
  cases e
  simp only [Event.store] at h ⊢
  rw [h, Function.update_eq_self]

/-- The `UpdateAttribute` wrapper of a storing encoder is a storing encoder. -/
theorem steps_update (k : Kind) (u : Any → Any) (enc : BinaryEncoder Event)
    (φ : Kind → Any → Any → Any) (h : Steps enc φ) :
    Steps (updateAttributeTranscoderFactory.BinaryTransformer k u enc) (updateStep k u φ) := by
  refine ⟨fun a v e => ?_, fun e => h.2 e⟩
  simp only [updateAttributeTranscoderFactory.BinaryTransformer,
    updateAttributeTransformer.SetAttribute]
  by_cases hk : a.kind = k
  · rw [if_pos hk]
    cases hu : u v with
    | none =>
      rw [Event.store_same]
      simp [updateStep, hk, hu]
    | some newVal =>
      simp only []
      rw [h.1]
      simp [Event.store, updateStep, hk, hu]
  · rw [if_neg hk, h.1]
    simp [Event.store, updateStep, hk]

/-- Presenting attributes to a storing encoder stores them one after the other. -/
theorem emit_steps (enc : BinaryEncoder Event) (φ : Kind → Any → Any → Any) (h : Steps enc φ)
    (cs : List (Attribute × Any)) (e : Event) :
    BinaryMessage.emit enc cs e = .ok (none, cs.foldl (Event.store φ) e) := by
  induction cs generalizing e with
  | nil => rfl
  | cons c rest ih =>
    obtain ⟨a, v⟩ := c
    rw [BinaryMessage.emit, h.1]
    simp only [ih, List.foldl_cons]

/-- A binary transfer into a storing encoder stores the attributes and ends. -/
theorem binary_steps (enc : BinaryEncoder Event) (φ : Kind → Any → Any → Any) (h : Steps enc φ)
    (cs : List (Attribute × Any)) (e : Event) :
    BinaryMessage.Binary enc cs e = .ok (none, cs.foldl (Event.store φ) e) := by
  rw [BinaryMessage.Binary, emit_steps enc φ h]
  simp only [h.2]

/-- The attribute a version gives for a kind has that kind and that version. -/
theorem Version.attributeFromKind_eq (v : Version) (k : Kind) (a : Attribute)
    (h : v.AttributeFromKind k = some a) : a = { kind := k, version := v } := by
  unfold Version.AttributeFromKind at h
  split at h
  · exact (Option.some.inj h).symm
  · cases h

/-- What a storing encoder holds for a kind after the attributes of an event
have been presented, each kind once. -/
theorem foldl_store_attrs (φ : Kind → Any → Any → Any) (ver : Version) (ev : Event)
    (ks : List Kind) (hnd : ks.Nodup) (s : Event) (k1 : Kind) :
    ((Event.binaryAttributes ver ev ks).foldl (Event.store φ) s).attrs k1 =
      if k1 ∈ ks ∧ (ver.AttributeFromKind k1).isSome ∧ (ev.attrs k1).isSome then
        φ k1 (ev.attrs k1) (s.attrs k1)
      else s.attrs k1 := by
  induction ks generalizing s with
  | nil => simp [Event.binaryAttributes]
  | cons k0 rest ih =>
    have hnd1 : rest.Nodup := (List.nodup_cons.mp hnd).2
    have hk0 : k0 ∉ rest := (List.nodup_cons.mp hnd).1
    cases ha : ver.AttributeFromKind k0 with
    | none =>
      have hl : Event.binaryAttributes ver ev (k0 :: rest) = Event.binaryAttributes ver ev rest := by
        simp [Event.binaryAttributes, ha]
      rw [hl, ih hnd1]
      by_cases h0 : k1 = k0
      · subst h0
        simp [hk0, ha]
      · simp [h0]
    | some a =>
      cases hv : ev.attrs k0 with
      | none =>
        have hl : Event.binaryAttributes ver ev (k0 :: rest) = Event.binaryAttributes ver ev rest := by
          simp [Event.binaryAttributes, ha, hv]
        rw [hl, ih hnd1]
        by_cases h0 : k1 = k0
        · subst h0
          simp [hk0, hv]
        · simp [h0]
      | some val =>
        have hl : Event.binaryAttributes ver ev (k0 :: rest) =
            (a, some val) :: Event.binaryAttributes ver ev rest := by
          simp [Event.binaryAttributes, ha, hv]
        have hak : a.kind = k0 := by
          rw [Version.attributeFromKind_eq ver k0 a ha]
        rw [hl, List.foldl_cons, ih hnd1]
        by_cases h0 : k1 = k0
        · subst h0
          simp [hk0, ha, hv, Event.store, hak]
        · have h1 : k1 ≠ a.kind := by rw [hak]; exact h0
          simp [h0, Event.store, Function.update, h1]

/-- Every kind is in the list of all kinds. -/
theorem Kind.mem_all (k : Kind) : k ∈ Kind.all := by
  cases k <;> simp [Kind.all]

/-- The list of all kinds has no repetition. -/
theorem Kind.all_nodup : Kind.all.Nodup := by
  decide

/-- The `UpdateAttribute` event transformer on an event of a known version that
has the kind: the attribute, when present, is replaced by what the updater
gives, and deleted when that is nil and the event context accepts the
deletion. -/
theorem updateAttribute_event_eq (vs : List Version) (refuse : Kind → Option Error) (e : Event)
    (ver : Version) (k : Kind) (a : Attribute) (u : Any → Any)
    (hver : VS.Version vs e.SpecVersion = .ok ver) (hk : ver.AttributeFromKind k = some a)
    (hdel : ∀ val, e.attrs k = some val → u (some val) = none → refuse k = none) :
    updateAttributeTranscoderFactory.EventTransformer vs refuse k u e =
      .ok (none,
        { e with attrs := (Function.update e.attrs k ((e.attrs k).bind fun val => u (some val))) })
    := by
  have hak : a.kind = k := by rw [Version.attributeFromKind_eq ver k a hk]
  unfold updateAttributeTranscoderFactory.EventTransformer
  simp only [hver, hk, Attribute.Get, hak]
  cases hv : e.attrs k with
  | none =>
    cases e
    simp only [Option.bind] at hv ⊢
    rw [← hv, Function.update_eq_self]
  | some val =>
    cases hu : u (some val) with
    | none => simp [Attribute.Delete, hak, hu, hdel val hv hu]
    | some newVal => simp [Attribute.Set, hak, hu]

/-- The `UpdateAttribute` event transformer when the updater answers nil and
the event context refuses the deletion: the error of the refusal is returned
and the event is left as it is. -/
theorem updateAttribute_event_refused (vs : List Version) (refuse : Kind → Option Error)
    (e : Event) (ver : Version) (k : Kind) (a : Attribute) (u : Any → Any) (val : Value)
    (err : Error)
    (hver : VS.Version vs e.SpecVersion = .ok ver) (hk : ver.AttributeFromKind k = some a)
    (hv : e.attrs k = some val) (hu : u (some val) = none) (hr : refuse k = some err) :
    updateAttributeTranscoderFactory.EventTransformer vs refuse k u e = .ok (some err, e) := by
  have hak : a.kind = k := by rw [Version.attributeFromKind_eq ver k a hk]
  unfold updateAttributeTranscoderFactory.EventTransformer
  simp only [hver, hk, Attribute.Get, hak, hv, hu, Attribute.Delete, hr]

/-- The `UpdateAttribute` wrapper around the event-building destination, fed
the attributes of an event: what the destination holds for each kind. -/
theorem updateAttribute_binary_eq (ver : Version) (e : Event) (k : Kind) (u : Any → Any) :
    ∃ eb, BinaryMessage.Binary (updateAttributeTranscoderFactory.BinaryTransformer k u eventEncoder)
        (Event.binaryAttributes ver e Kind.all) Event.empty = .ok (none, eb) ∧
      ∀ k1, eb.attrs k1 =
        if (ver.AttributeFromKind k1).isSome then
          (if k1 = k then (e.attrs k1).bind fun val => u (some val) else e.attrs k1)
        else none := by
  refine ⟨_, binary_steps _ _ (steps_update k u _ _ steps_eventEncoder) _ _, fun k1 => ?_⟩
  rw [foldl_store_attrs _ ver e Kind.all Kind.all_nodup Event.empty k1]
  cases hd : ver.AttributeFromKind k1 with
  | none => simp [Event.empty]
  | some a1 =>
    cases hv : e.attrs k1 with
    | none => simp [Event.empty]
    | some val =>
      by_cases h0 : k1 = k
      · cases hu : u (some val) <;> simp [Kind.mem_all, updateStep, h0, hu, Event.empty]
      · simp [Kind.mem_all, updateStep, h0]

/-- C9, as stated, fails: with two updaters of the subject that append the tags
`-f` and `-g`, declared in this order, the binary path (first declared closest
to the destination) delivers `v-g-f` and the event path delivers `v-f-g`. -/
theorem updateAttribute_pipeline_paths_differ :
    (∀ x, appendTag "-f" x ≠ none) ∧ (∀ x, appendTag "-g" x ≠ none) ∧
    (stateOf (BinaryMessage.Binary
        (TransformerFactories.BinaryTransformer
          [updateAttributeTranscoderFactory.BinaryTransformer .Subject (appendTag "-f"),
           updateAttributeTranscoderFactory.BinaryTransformer .Subject (appendTag "-g")]
          eventEncoder)
        (Event.binaryAttributes V03 subjectEvent Kind.all) Event.empty)).map
      (fun e => e.attrs .Subject) = some (some (.str "v-g-f")) ∧
    (stateOf (TransformerFactories.EventTransformer
        [updateAttributeTranscoderFactory.EventTransformer [V03] refuseID .Subject
          (appendTag "-f"),
         updateAttributeTranscoderFactory.EventTransformer [V03] refuseID .Subject
          (appendTag "-g")]
        subjectEvent)).map
      (fun e => e.attrs .Subject) = some (some (.str "v-f-g")) := by
  refine ⟨?_, ?_, rfl, rfl⟩
  · intro x
    unfold appendTag
    split <;> simp
  · intro x
    unfold appendTag
    split <;> simp

/-- C9, amended: for a kind `k` other than the spec version, present with value
`v` in an event of a known version that has the kind, and updaters `f` and `g`
that never return nil, the pipeline `[UpdateAttribute(k,f), UpdateAttribute(k,g)]`
delivers `f(g(v))` on the binary path (first declared closest to the
destination) and `g(f(v))` on the event path; the two paths agree exactly when
`f(g(v)) = g(f(v))`. -/
theorem updateAttribute_pipeline_order (vs : List Version) (refuse : Kind → Option Error)
    (e : Event) (ver : Version) (k : Kind) (a : Attribute) (v : Value) (f g : Any → Any)
    (hver : VS.Version vs e.SpecVersion = .ok ver) (hk : ver.AttributeFromKind k = some a)
    (hv : e.attrs k = some v) (hks : k ≠ .SpecVersion)
    (hf : ∀ x, f x ≠ none) (hg : ∀ x, g x ≠ none) :
    ∃ eb ee,
      BinaryMessage.Binary
        (TransformerFactories.BinaryTransformer
          [updateAttributeTranscoderFactory.BinaryTransformer k f,
           updateAttributeTranscoderFactory.BinaryTransformer k g] eventEncoder)
        (Event.binaryAttributes ver e Kind.all) Event.empty = .ok (none, eb) ∧
      TransformerFactories.EventTransformer
        [updateAttributeTranscoderFactory.EventTransformer vs refuse k f,
         updateAttributeTranscoderFactory.EventTransformer vs refuse k g] e = .ok (none, ee) ∧
      eb.attrs k = f (g (some v)) ∧
      ee.attrs k = g (f (some v)) ∧
      (eb.attrs k = ee.attrs k ↔ f (g (some v)) = g (f (some v))) := by
  obtain ⟨y, hy⟩ := Option.ne_none_iff_exists'.mp (hg (some v))
  obtain ⟨x, hx⟩ := Option.ne_none_iff_exists'.mp (hf (some y))
  obtain ⟨z, hz⟩ := Option.ne_none_iff_exists'.mp (hf (some v))
  have hb : (((Event.binaryAttributes ver e Kind.all).foldl
      (Event.store (updateStep k g (updateStep k f (fun _ v _ => v)))) Event.empty).attrs k)
      = f (g (some v)) := by
    rw [foldl_store_attrs _ ver e Kind.all Kind.all_nodup Event.empty k]
    simp [Kind.mem_all, hk, hv, updateStep, hy, hx]
  have hver1 : VS.Version vs
      ({ e with attrs :=
          (Function.update e.attrs k ((e.attrs k).bind fun val => f (some val))) } :
        Event).SpecVersion = .ok ver := by
    rw [← hver]
    simp [Event.SpecVersion, Function.update, Ne.symm hks]
  have he : TransformerFactories.EventTransformer
      [updateAttributeTranscoderFactory.EventTransformer vs refuse k f,
       updateAttributeTranscoderFactory.EventTransformer vs refuse k g] e =
      .ok (none, { e with attrs := (Function.update
        (Function.update e.attrs k ((e.attrs k).bind fun val => f (some val))) k
        (g (f (some v)))) }) := by
    simp only [TransformerFactories.EventTransformer,
      updateAttribute_event_eq vs refuse e ver k a f hver hk
        (fun val _ hu => absurd hu (hf (some val))),
      updateAttribute_event_eq vs refuse _ ver k a g hver1 hk
        (fun val _ hu => absurd hu (hg (some val)))]
    simp [hv, hz]
  refine ⟨_, _,
    binary_steps _ _ (steps_update k g _ _ (steps_update k f _ _ steps_eventEncoder)) _ _,
    he, hb, by simp, ?_⟩
  rw [hb]
  simp

/-- Witness for C9, amended: the subject of an event of version 0.3 updated by
two tag-appending updaters. -/
theorem updateAttribute_pipeline_order_witness :
    ∃ eb ee,
      BinaryMessage.Binary
        (TransformerFactories.BinaryTransformer
          [updateAttributeTranscoderFactory.BinaryTransformer .Subject (appendTag "-f"),
           updateAttributeTranscoderFactory.BinaryTransformer .Subject (appendTag "-g")]
          eventEncoder)
        (Event.binaryAttributes V03 subjectEvent Kind.all) Event.empty = .ok (none, eb) ∧
      TransformerFactories.EventTransformer
        [updateAttributeTranscoderFactory.EventTransformer [V03] refuseID .Subject
          (appendTag "-f"),
         updateAttributeTranscoderFactory.EventTransformer [V03] refuseID .Subject
          (appendTag "-g")]
        subjectEvent = .ok (none, ee) ∧
      eb.attrs .Subject = appendTag "-f" (appendTag "-g" (some (.str "v"))) ∧
      ee.attrs .Subject = appendTag "-g" (appendTag "-f" (some (.str "v"))) ∧
      (eb.attrs .Subject = ee.attrs .Subject ↔
        appendTag "-f" (appendTag "-g" (some (.str "v"))) =
          appendTag "-g" (appendTag "-f" (some (.str "v")))) :=
  updateAttribute_pipeline_order [V03] refuseID subjectEvent V03 .Subject (V03.attr .Subject)
    (.str "v")
    (appendTag "-f") (appendTag "-g") rfl rfl rfl (by decide)
    (fun x => by unfold appendTag; split <;> simp)
    (fun x => by unfold appendTag; split <;> simp)

/-- C10, as stated, fails: on an event of version 0.3 with the id `1`, with an
updater of the id that answers nil and an event context that refuses to lose
the id, the binary path delivers an event without id, while the event path
returns the error of the refusal and keeps the id. -/
theorem updateAttribute_delete_refused_paths_differ :
    VS.Version [V03] subjectEvent.SpecVersion = .ok V03 ∧
    V03.AttributeFromKind .ID = some (V03.attr .ID) ∧
    subjectEvent.attrs .ID = some (.str "1") ∧
    removeUpdater (some (.str "1")) = none ∧
    (stateOf (BinaryMessage.Binary
        (updateAttributeTranscoderFactory.BinaryTransformer .ID removeUpdater eventEncoder)
        (Event.binaryAttributes V03 subjectEvent Kind.all) Event.empty)).map
      (fun e => e.attrs .ID) = some none ∧
    errorOf (updateAttributeTranscoderFactory.EventTransformer [V03] refuseID .ID removeUpdater
        subjectEvent) = some (some (.other "id is required to be a non-empty string")) ∧
    (stateOf (updateAttributeTranscoderFactory.EventTransformer [V03] refuseID .ID
        removeUpdater subjectEvent)).map (fun e => e.attrs .ID) = some (some (.str "1")) :=
  ⟨rfl, rfl, rfl, rfl, rfl, rfl, rfl⟩

/-- C10, amended: for an event of a known version, a kind `k` that the version
has and an updater `u`, the binary path (the attributes of the event presented
to the wrapper of `UpdateAttribute(k,u)` around an event-building destination)
ends without error. When the event context accepts the deletion of `k`, or
`u(v)` is not nil, the event path ends without error too and holds the same
attributes: with `k` present with value `v` both hold `u(v)` for `k`, which is
no attribute when `u(v)` is nil, and every other kind keeps its value on both
paths. When `u(v)` is nil and the event context refuses the deletion, the event
path returns the error of the refusal and leaves the event as it is, while the
binary path delivers no attribute of kind `k`. -/
theorem updateAttribute_binary_event_agree (vs : List Version) (refuse : Kind → Option Error)
    (e : Event) (ver : Version) (k : Kind) (a : Attribute) (u : Any → Any)
    (hver : VS.Version vs e.SpecVersion = .ok ver) (hk : ver.AttributeFromKind k = some a) :
    ∃ eb,
      BinaryMessage.Binary (updateAttributeTranscoderFactory.BinaryTransformer k u eventEncoder)
        (Event.binaryAttributes ver e Kind.all) Event.empty = .ok (none, eb) ∧
      ((∀ v, e.attrs k = some v → u (some v) = none → refuse k = none) →
        ∃ ee,
          updateAttributeTranscoderFactory.EventTransformer vs refuse k u e = .ok (none, ee) ∧
          (∀ k1, (ver.AttributeFromKind k1).isSome → eb.attrs k1 = ee.attrs k1) ∧
          (∀ v, e.attrs k = some v → eb.attrs k = u (some v) ∧ ee.attrs k = u (some v)) ∧
          (∀ k1, k1 ≠ k → ee.attrs k1 = e.attrs k1 ∧
            ((ver.AttributeFromKind k1).isSome → eb.attrs k1 = e.attrs k1))) ∧
      (∀ v err, e.attrs k = some v → u (some v) = none → refuse k = some err →
        updateAttributeTranscoderFactory.EventTransformer vs refuse k u e =
          .ok (some err, e) ∧
        eb.attrs k = none) := by
  obtain ⟨eb, hb, hattrs⟩ := updateAttribute_binary_eq ver e k u
  refine ⟨eb, hb, ?_, ?_⟩
  · intro hdel
    refine ⟨_, updateAttribute_event_eq vs refuse e ver k a u hver hk hdel, ?_, ?_, ?_⟩
    · intro k1 hd
      rw [hattrs k1]
      by_cases h0 : k1 = k
      · subst h0
        simp [hd]
      · simp [hd, h0, Function.update]
    · intro v hv
      rw [hattrs k]
      simp [hk, hv]
    · intro k1 h0
      refine ⟨by simp [Function.update, h0], fun hd => ?_⟩
      rw [hattrs k1]
      simp [hd, h0]
  · intro v err hv hu hr
    refine ⟨updateAttribute_event_refused vs refuse e ver k a u v err hver hk hv hu hr, ?_⟩
    rw [hattrs k]
    simp [hk, hv, hu]

/-- Witness for C10, amended: the subject of an event of version 0.3 updated by
a tag-appending updater, with an event context that refuses to lose the id. -/
theorem updateAttribute_binary_event_agree_witness :
    ∃ eb,
      BinaryMessage.Binary
        (updateAttributeTranscoderFactory.BinaryTransformer .Subject (appendTag "-f")
          eventEncoder)
        (Event.binaryAttributes V03 subjectEvent Kind.all) Event.empty = .ok (none, eb) ∧
      ((∀ v, subjectEvent.attrs .Subject = some v → appendTag "-f" (some v) = none →
          refuseID .Subject = none) →
        ∃ ee,
          updateAttributeTranscoderFactory.EventTransformer [V03] refuseID .Subject
            (appendTag "-f") subjectEvent = .ok (none, ee) ∧
          (∀ k1, (V03.AttributeFromKind k1).isSome → eb.attrs k1 = ee.attrs k1) ∧
          (∀ v, subjectEvent.attrs .Subject = some v →
            eb.attrs .Subject = appendTag "-f" (some v) ∧
            ee.attrs .Subject = appendTag "-f" (some v)) ∧
          (∀ k1, k1 ≠ Kind.Subject → ee.attrs k1 = subjectEvent.attrs k1 ∧
            ((V03.AttributeFromKind k1).isSome → eb.attrs k1 = subjectEvent.attrs k1))) ∧
      (∀ v err, subjectEvent.attrs .Subject = some v → appendTag "-f" (some v) = none →
        refuseID .Subject = some err →
        updateAttributeTranscoderFactory.EventTransformer [V03] refuseID .Subject
          (appendTag "-f") subjectEvent = .ok (some err, subjectEvent) ∧
        eb.attrs .Subject = none) :=
  updateAttribute_binary_event_agree [V03] refuseID subjectEvent V03 .Subject
    (V03.attr .Subject) (appendTag "-f") rfl rfl

/-! ### Transformer factories: structured mode and construction -/

/-- C11: `StructuredTransformer` of `AddUUID`, of `AddTimeNow` and of every
`UpdateAttribute(kind, updater)` returns nil for every structured encoder, and
`BinaryTransformer` of each returns a non-nil wrapper that embeds the given
encoder: a fresh wrapper holds the state of that encoder and passes the calls
it does not intercept on to it. -/
theorem transformers_structured_nil_binary_wrapper {W σ : Type} (uuid : String) (now : Time)
    (kind : Kind) (updater : Any → Any) (se : StructuredEncoder W) (encoder : BinaryEncoder σ)
    (s : σ) :
    (addUUID.StructuredTransformer se = none ∧
      addTimeNow.StructuredTransformer se = none ∧
      updateAttributeTranscoderFactory.StructuredTransformer kind updater se = none) ∧
    (∃ w b, addUUID.BinaryTransformerValue uuid encoder s = some (w, b) ∧
      b.encoder = s ∧ b.found = false ∧
      (∀ n v, w.SetExtension n v b = addUUIDTransformer.promoted (encoder.SetExtension n v) b) ∧
      (∀ r, w.SetData r b = addUUIDTransformer.promoted (encoder.SetData r) b)) ∧
    (∃ w b, addTimeNow.BinaryTransformerValue now encoder s = some (w, b) ∧
      b.encoder = s ∧ b.found = false ∧
      (∀ n v, w.SetExtension n v b =
        addTimeNowTransformer.promoted (encoder.SetExtension n v) b) ∧
      (∀ r, w.SetData r b = addTimeNowTransformer.promoted (encoder.SetData r) b)) ∧
    (∃ w b, updateAttributeTranscoderFactory.BinaryTransformerValue kind updater encoder s =
        some (w, b) ∧
      b = s ∧ w.SetExtension = encoder.SetExtension ∧ w.SetData = encoder.SetData ∧
      w.End = encoder.End) :=
  ⟨⟨rfl, rfl, rfl⟩,
    ⟨_, _, rfl, rfl, rfl, fun _ _ => rfl, fun _ => rfl⟩,
    ⟨_, _, rfl, rfl, rfl, fun _ _ => rfl, fun _ => rfl⟩,
    ⟨_, _, rfl, rfl, rfl, rfl, rfl⟩⟩

/-! ### Faults of the metadata wrappers and of the event transformer -/

/-- One `SetAttribute` on the `AddTimeNow` wrapper: the call is forwarded as it
is, the version recorded and the flag raised on a time. -/
theorem addTimeNow.time_setAttribute_step {σ : Type} (now : Time) (inner : BinaryEncoder σ)
    (a : Attribute) (v : Any) (s s1 : σ) (ver : Option Version) (fnd : Bool) (r : Option Error)
    (h : inner.SetAttribute (some a) v s = .ok (r, s1)) :
    (addTimeNow.BinaryTransformer now inner).SetAttribute (some a) v
        { encoder := s, version := ver, found := fnd } =
      .ok (r, { encoder := s1, version := some a.version, found := fnd || (a.kind == .Time) }) := by
  by_cases hk : a.kind = .Time
  · simp [addTimeNow.BinaryTransformer, addTimeNowTransformer.SetAttribute, hk, h]
  · simp [addTimeNow.BinaryTransformer, addTimeNowTransformer.SetAttribute, hk, h]

/-- The state of the `AddUUID` wrapper after a run of `SetAttribute` calls on a
total inner encoder. -/
theorem addUUID.setAll_state {σ : Type} (uuid : String) (inner : BinaryEncoder σ)
    (htot : ∀ a v s, ∃ r s1, inner.SetAttribute a v s = .ok (r, s1))
    (cs : List (Attribute × Any)) (s : σ) (ver : Option Version) (fnd : Bool) :
    ∃ s1, BinaryMessage.setAll (addUUID.BinaryTransformer uuid inner) cs
        { encoder := s, version := ver, found := fnd } =
      .ok { encoder := s1, version := lastVersion ver cs, found := fnd || hasKind .ID cs } := by
  induction cs generalizing s ver fnd with
  | nil => exact ⟨s, by simp [BinaryMessage.setAll, lastVersion, hasKind]⟩
  | cons c rest ih =>
    obtain ⟨a, v⟩ := c
    obtain ⟨r, s1, hs1⟩ := htot (some a) v s
    obtain ⟨s2, hs2⟩ := ih s1 (some a.version) (fnd || (a.kind == .ID))
    refine ⟨s2, ?_⟩
    rw [BinaryMessage.setAll, addUUID.setAttribute_step uuid inner a v s s1 ver fnd r hs1]
    simp only [hs2]
    simp [lastVersion, hasKind, Bool.or_assoc]

/-- The state of the `AddTimeNow` wrapper after a run of `SetAttribute` calls on
a total inner encoder. -/
theorem addTimeNow.time_setAll_state {σ : Type} (now : Time) (inner : BinaryEncoder σ)
    (htot : ∀ a v s, ∃ r s1, inner.SetAttribute a v s = .ok (r, s1))
    (cs : List (Attribute × Any)) (s : σ) (ver : Option Version) (fnd : Bool) :
    ∃ s1, BinaryMessage.setAll (addTimeNow.BinaryTransformer now inner) cs
        { encoder := s, version := ver, found := fnd } =
      .ok { encoder := s1, version := lastVersion ver cs, found := fnd || hasKind .Time cs } := by
  induction cs generalizing s ver fnd with
  | nil => exact ⟨s, by simp [BinaryMessage.setAll, lastVersion, hasKind]⟩
  | cons c rest ih =>
    obtain ⟨a, v⟩ := c
    obtain ⟨r, s1, hs1⟩ := htot (some a) v s
    obtain ⟨s2, hs2⟩ := ih s1 (some a.version) (fnd || (a.kind == .Time))
    refine ⟨s2, ?_⟩
    rw [BinaryMessage.setAll, addTimeNow.time_setAttribute_step now inner a v s s1 ver fnd r hs1]
    simp only [hs2]
    simp [lastVersion, hasKind, Bool.or_assoc]

/-- The method `End` of the `AddUUID` wrapper on a total inner encoder completes
exactly when an id was seen or a version is recorded. -/
theorem addUUID.end_ok_iff {σ : Type} (uuid : String) (inner : BinaryEncoder σ)
    (htot : ∀ a v s, ∃ r s1, inner.SetAttribute a v s = .ok (r, s1))
    (b : addUUIDTransformer σ) :
    (∃ r b1, (addUUID.BinaryTransformer uuid inner).End b = .ok (r, b1)) ↔
      (b.found = true ∨ b.version ≠ none) := by
  obtain ⟨s, ver, fnd⟩ := b
  cases fnd with
  | true => simp [addUUID.BinaryTransformer, addUUIDTransformer.End]
  | false =>
    cases ver with
    | none => simp [addUUID.BinaryTransformer, addUUIDTransformer.End]
    | some v =>
      obtain ⟨r, s1, h⟩ := htot (v.AttributeFromKind .ID) (some (.str uuid)) s
      simp [addUUID.BinaryTransformer, addUUIDTransformer.End, h]

/-- The method `End` of the `AddTimeNow` wrapper on a total inner encoder
completes exactly when a time was seen or a version is recorded. -/
theorem addTimeNow.time_end_ok_iff {σ : Type} (now : Time) (inner : BinaryEncoder σ)
    (htot : ∀ a v s, ∃ r s1, inner.SetAttribute a v s = .ok (r, s1))
    (b : addTimeNowTransformer σ) :
    (∃ r b1, (addTimeNow.BinaryTransformer now inner).End b = .ok (r, b1)) ↔
      (b.found = true ∨ b.version ≠ none) := by
  obtain ⟨s, ver, fnd⟩ := b
  cases fnd with
  | true => simp [addTimeNow.BinaryTransformer, addTimeNowTransformer.End]
  | false =>
    cases ver with
    | none => simp [addTimeNow.BinaryTransformer, addTimeNowTransformer.End]
    | some v =>
      obtain ⟨r, s1, h⟩ := htot (v.AttributeFromKind .Time) (some (.timestamp now)) s
      simp [addTimeNow.BinaryTransformer, addTimeNowTransformer.End, h]

/-- The recorded version is unset exactly when no attribute was presented. -/
theorem lastVersion_none_iff (cs : List (Attribute × Any)) :
    lastVersion none cs = none ↔ cs = [] := by
  constructor
  · intro h
    by_contra hne
    rw [lastVersion_eq_getLast none cs hne] at h
    cases h
  · intro h
    subst h
    rfl

/-- A presented attribute of some kind means that an attribute was presented. -/
theorem hasKind_ne_nil (k : Kind) (cs : List (Attribute × Any)) (h : hasKind k cs = true) :
    cs ≠ [] := by
  intro hn
  subst hn
  simp [hasKind] at h

/-- C18: on a total inner encoder, after any run of `SetAttribute` calls on a
fresh `AddUUID` (respectively `AddTimeNow`) wrapper, the version the wrapper
holds is that of the most recent call, and `End` completes without a fault
exactly when the id (respectively time) attribute was seen or at least one
`SetAttribute` call came before; as the first call on a fresh wrapper, `End`
finds no version recorded and faults with a nil dereference. -/
theorem addUUID_addTimeNow_end_fault_iff {σ : Type} (uuid : String) (now : Time)
    (inner : BinaryEncoder σ)
    (htot : ∀ a v s, ∃ r s1, inner.SetAttribute a v s = .ok (r, s1))
    (cs : List (Attribute × Any)) (s0 : σ) :
    (∃ b, BinaryMessage.setAll (addUUID.BinaryTransformer uuid inner) cs
        (addUUID.newTransformer s0) = .ok b ∧
      b.version = lastVersion none cs ∧
      ((∃ r b1, (addUUID.BinaryTransformer uuid inner).End b = .ok (r, b1)) ↔
        (hasKind .ID cs = true ∨ cs ≠ [])) ∧
      (cs = [] → (addUUID.BinaryTransformer uuid inner).End b = .error .nilDereference)) ∧
    (∃ b, BinaryMessage.setAll (addTimeNow.BinaryTransformer now inner) cs
        (addTimeNow.newTransformer s0) = .ok b ∧
      b.version = lastVersion none cs ∧
      ((∃ r b1, (addTimeNow.BinaryTransformer now inner).End b = .ok (r, b1)) ↔
        (hasKind .Time cs = true ∨ cs ≠ [])) ∧
      (cs = [] → (addTimeNow.BinaryTransformer now inner).End b = .error .nilDereference)) ∧
    (addUUID.newTransformer s0).version = none ∧
    (addUUID.BinaryTransformer uuid inner).End (addUUID.newTransformer s0) =
      .error .nilDereference ∧
    (addTimeNow.newTransformer s0).version = none ∧
    (addTimeNow.BinaryTransformer now inner).End (addTimeNow.newTransformer s0) =
      .error .nilDereference := by
  refine ⟨?_, ?_, rfl, rfl, rfl, rfl⟩
  · obtain ⟨s1, h1⟩ := addUUID.setAll_state uuid inner htot cs s0 none false
    refine ⟨_, h1, rfl, ?_, ?_⟩
    · rw [addUUID.end_ok_iff uuid inner htot]
      simp only [Bool.false_or, ne_eq, lastVersion_none_iff]
    · intro h
      subst h
      rfl
  · obtain ⟨s1, h1⟩ := addTimeNow.time_setAll_state now inner htot cs s0 none false
    refine ⟨_, h1, rfl, ?_, ?_⟩
    · rw [addTimeNow.time_end_ok_iff now inner htot]
      simp only [Bool.false_or, ne_eq, lastVersion_none_iff]
    · intro h
      subst h
      rfl

/-- Witness for C18: the scenario attributes presented to the wrappers around
an encoder that accepts every call. -/
theorem addUUID_addTimeNow_end_fault_iff_witness :
    (∃ b, BinaryMessage.setAll (addUUID.BinaryTransformer sampleUUID nullEncoder)
        scenarioAttributes (addUUID.newTransformer ()) = .ok b ∧
      b.version = lastVersion none scenarioAttributes ∧
      ((∃ r b1, (addUUID.BinaryTransformer sampleUUID nullEncoder).End b = .ok (r, b1)) ↔
        (hasKind .ID scenarioAttributes = true ∨ scenarioAttributes ≠ [])) ∧
      (scenarioAttributes = [] →
        (addUUID.BinaryTransformer sampleUUID nullEncoder).End b = .error .nilDereference)) ∧
    (∃ b, BinaryMessage.setAll (addTimeNow.BinaryTransformer sampleNow nullEncoder)
        scenarioAttributes (addTimeNow.newTransformer ()) = .ok b ∧
      b.version = lastVersion none scenarioAttributes ∧
      ((∃ r b1, (addTimeNow.BinaryTransformer sampleNow nullEncoder).End b = .ok (r, b1)) ↔
        (hasKind .Time scenarioAttributes = true ∨ scenarioAttributes ≠ [])) ∧
      (scenarioAttributes = [] →
        (addTimeNow.BinaryTransformer sampleNow nullEncoder).End b =
          .error .nilDereference)) ∧
    (addUUID.newTransformer ()).version = none ∧
    (addUUID.BinaryTransformer sampleUUID nullEncoder).End (addUUID.newTransformer ()) =
      .error .nilDereference ∧
    (addTimeNow.newTransformer ()).version = none ∧
    (addTimeNow.BinaryTransformer sampleNow nullEncoder).End (addTimeNow.newTransformer ()) =
      .error .nilDereference :=
  addUUID_addTimeNow_end_fault_iff sampleUUID sampleNow nullEncoder
    (fun _ _ s => ⟨none, s, rfl⟩) scenarioAttributes ()

/-- C19, evaluated on an event of version 0.1, a version without subject: the
registry knows the version, `AttributeFromKind(Subject)` is nil, and the event
transformer of `UpdateAttribute(Subject, u)` faults with a nil dereference
whatever the updater, instead of returning nil. -/
theorem updateAttribute_event_missing_kind_faults :
    VS.Version [V01, V03] oldEvent.SpecVersion = .ok V01 ∧
    V01.AttributeFromKind .Subject = none ∧
    ∀ refuse u,
      updateAttributeTranscoderFactory.EventTransformer [V01, V03] refuse .Subject u oldEvent =
        .error .nilDereference :=
  ⟨rfl, rfl, fun _ _ => rfl⟩

/-- The other two cases of C19: on an unknown version the event transformer
returns the error of the registry, and on an absent attribute of a kind the
version has it returns nil; in both the event is left as it is, whatever the
updater. -/
theorem updateAttribute_event_unknown_or_absent (vs : List Version)
    (refuse : Kind → Option Error) (k : Kind) (u : Any → Any) (e : Event) :
    (∀ err, VS.Version vs e.SpecVersion = .error err →
      updateAttributeTranscoderFactory.EventTransformer vs refuse k u e = .ok (some err, e)) ∧
    (∀ ver a, VS.Version vs e.SpecVersion = .ok ver → ver.AttributeFromKind k = some a →
      e.attrs k = none →
      updateAttributeTranscoderFactory.EventTransformer vs refuse k u e = .ok (none, e)) := by
  constructor
  · intro err h
    simp [updateAttributeTranscoderFactory.EventTransformer, h]
  · intro ver a hver hk habs
    have hak : a.kind = k := by rw [Version.attributeFromKind_eq ver k a hk]
    simp [updateAttributeTranscoderFactory.EventTransformer, hver, hk, Attribute.Get, hak, habs]

/-! ### The channel receiver -/

/-- C12: with a context that is not nil, every result of
`ChanReceiver.Receive` is the next value of the channel with a nil error, or
nil with `io.EOF`, which needs the channel closed and drained, or nil with
`ctx.Err()`, which needs the context done; a result with an error carries no
message. On a closed, drained channel with a context that is not done the only
result is `(nil, io.EOF)`, and on an open empty channel with a context that is
done the only result is `(nil, ctx.Err())`. -/
theorem ChanReceiver.receive_results {M : Type} (c : Context) (r : Chan M) :
    (∀ out ∈ ChanReceiver.Receive (some c) r,
      ((∃ m rest, r.queue = m :: rest ∧
          out = { msg := m, err := none, chan := { r with queue := rest } }) ∨
        (out = { msg := none, err := some EOF, chan := r } ∧
          r.closed = true ∧ r.queue = []) ∨
        (out = { msg := none, err := c.Err, chan := r } ∧ c.Err ≠ none)) ∧
      (out.err ≠ none → out.msg = none)) ∧
    (r.closed = true → r.queue = [] → c.Err = none →
      ChanReceiver.Receive (some c) r = [{ msg := none, err := some EOF, chan := r }]) ∧
    (r.closed = false → r.queue = [] → c.Err ≠ none →
      ChanReceiver.Receive (some c) r = [{ msg := none, err := c.Err, chan := r }]) := by
  obtain ⟨ce⟩ := c
  obtain ⟨q, cl⟩ := r
  refine ⟨?_, ?_, ?_⟩
  · intro out hout
    cases ce with
    | none =>
      cases q with
      | nil =>
        cases cl with
        | false => simp [ChanReceiver.Receive] at hout
        | true =>
          simp only [ChanReceiver.Receive, List.nil_append, if_true, List.mem_singleton] at hout
          subst hout
          exact ⟨Or.inr (Or.inl ⟨rfl, rfl, rfl⟩), fun _ => rfl⟩
      | cons m rest =>
        simp only [ChanReceiver.Receive, List.nil_append, List.mem_singleton] at hout
        subst hout
        exact ⟨Or.inl ⟨m, rest, rfl, rfl⟩, fun h => absurd rfl h⟩
    | some e =>
      cases q with
      | nil =>
        cases cl with
        | false =>
          simp only [ChanReceiver.Receive, List.singleton_append, Bool.false_eq_true, if_false,
            List.mem_singleton] at hout
          subst hout
          exact ⟨Or.inr (Or.inr ⟨rfl, by simp⟩), fun _ => rfl⟩
        | true =>
          simp only [ChanReceiver.Receive, List.singleton_append, if_true, List.mem_cons,
            List.mem_singleton, List.not_mem_nil, or_false] at hout
          rcases hout with h | h
          · subst h
            exact ⟨Or.inr (Or.inr ⟨rfl, by simp⟩), fun _ => rfl⟩
          · subst h
            exact ⟨Or.inr (Or.inl ⟨rfl, rfl, rfl⟩), fun _ => rfl⟩
      | cons m rest =>
        simp only [ChanReceiver.Receive, List.singleton_append, List.mem_cons,
          List.mem_singleton, List.not_mem_nil, or_false] at hout
        rcases hout with h | h
        · subst h
          exact ⟨Or.inr (Or.inr ⟨rfl, by simp⟩), fun _ => rfl⟩
        · subst h
          exact ⟨Or.inl ⟨m, rest, rfl, rfl⟩, fun h => absurd rfl h⟩
  · intro hcl hq hc
    simp only at hcl hq hc
    subst hcl hq hc
    rfl
  · intro hcl hq hc
    simp only at hcl hq hc
    subst hcl hq
    cases ce with
    | none => exact absurd rfl hc
    | some e => rfl

/-! ### The HTTP request encoder -/

/-- C13, as stated, fails: for the attribute of kind data content type,
`SetAttribute` adds the formatted value under `Content-Type` and nothing under
the prefixed name of the attribute. -/
theorem httpRequestEncoder.content_type_not_prefixed :
    sampleBinding.Format (some (.str "application/json")) = .ok "application/json" ∧
    sampleBinding.pfx ++ (V03.attr .DataContentType).Name = "ce-datacontenttype" ∧
    (stateOf (httpRequestEncoder.SetAttribute sampleBinding (some (V03.attr .DataContentType))
        (some (.str "application/json")) emptyRequest)).map
      (fun b => b.Header.Values sampleBinding.canon "ce-datacontenttype") = some [] ∧
    (stateOf (httpRequestEncoder.SetAttribute sampleBinding (some (V03.attr .DataContentType))
        (some (.str "application/json")) emptyRequest)).map
      (fun b => b.Header.Values sampleBinding.canon "Content-Type") =
      some ["application/json"] := by
  refine ⟨rfl, by decide, rfl, rfl⟩

/-- Adding a value to a header: the key gains the value, every other canonical
key keeps its values. -/
theorem http.Header.add_values (canon : String → String) (h : http.Header) (key value : String) :
    (h.Add canon key value).Values canon key = h.Values canon key ++ [value] ∧
    ∀ ck, ck ≠ canon key → (h.Add canon key value) ck = h ck := by
  constructor
  · simp [http.Header.Add, http.Header.Values]
  · intro ck hck
    simp [http.Header.Add, Function.update, hck]

/-- C13, amended: for a value that formats to the string `s`, `SetAttribute`
of an attribute of any kind but data content type adds `s` under the header
named `prefix + a.Name()`, `SetAttribute` of an attribute of kind data content
type adds `s` under `Content-Type`, and `SetExtension(n, value)` adds `s` under
`prefix + n`; each returns nil and changes no other header and not the body. -/
theorem httpRequestEncoder.set_adds_header (env : http.Binding) (a : Attribute) (n : String)
    (value : Any) (s : String) (b : httpRequestEncoder) (hfmt : env.Format value = .ok s) :
    (∃ b1, httpRequestEncoder.SetAttribute env (some a) value b = .ok (none, b1) ∧
      b1.Body = b.Body ∧
      (a.kind ≠ .DataContentType →
        b1.Header.Values env.canon (env.pfx ++ a.Name) =
          b.Header.Values env.canon (env.pfx ++ a.Name) ++ [s] ∧
        ∀ ck, ck ≠ env.canon (env.pfx ++ a.Name) → b1.Header ck = b.Header ck) ∧
      (a.kind = .DataContentType →
        b1.Header.Values env.canon env.ContentType =
          b.Header.Values env.canon env.ContentType ++ [s] ∧
        ∀ ck, ck ≠ env.canon env.ContentType → b1.Header ck = b.Header ck)) ∧
    (∃ b1, httpRequestEncoder.SetExtension env n value b = (none, b1) ∧
      b1.Body = b.Body ∧
      b1.Header.Values env.canon (env.pfx ++ n) =
        b.Header.Values env.canon (env.pfx ++ n) ++ [s] ∧
      ∀ ck, ck ≠ env.canon (env.pfx ++ n) → b1.Header ck = b.Header ck) := by
  constructor
  · by_cases hk : a.kind = .DataContentType
    · refine ⟨{ b with Header := b.Header.Add env.canon env.ContentType s }, ?_, rfl,
        fun h => absurd hk h, fun _ => ?_⟩
      · simp only [httpRequestEncoder.SetAttribute, hfmt, hk, if_true]
      · exact http.Header.add_values env.canon b.Header env.ContentType s
    · refine ⟨{ b with Header := b.Header.Add env.canon (env.pfx ++ a.Name) s }, ?_, rfl,
        fun _ => ?_, fun h => absurd h hk⟩
      · simp only [httpRequestEncoder.SetAttribute, hfmt, hk, if_false]
      · exact http.Header.add_values env.canon b.Header (env.pfx ++ a.Name) s
  · refine ⟨{ b with Header := b.Header.Add env.canon (env.pfx ++ n) s }, ?_, rfl, ?_⟩
    · simp only [httpRequestEncoder.SetExtension, hfmt]
    · exact http.Header.add_values env.canon b.Header (env.pfx ++ n) s

/-- Witness for C13, amended: the id attribute and an extension set on an empty
request. -/
theorem httpRequestEncoder.set_adds_header_witness :
    (∃ b1, httpRequestEncoder.SetAttribute sampleBinding (some (V03.attr .ID))
        (some (.str "abc")) emptyRequest = .ok (none, b1) ∧
      b1.Body = emptyRequest.Body ∧
      ((V03.attr .ID).kind ≠ .DataContentType →
        b1.Header.Values sampleBinding.canon (sampleBinding.pfx ++ (V03.attr .ID).Name) =
          emptyRequest.Header.Values sampleBinding.canon
            (sampleBinding.pfx ++ (V03.attr .ID).Name) ++ ["abc"] ∧
        ∀ ck, ck ≠ sampleBinding.canon (sampleBinding.pfx ++ (V03.attr .ID).Name) →
          b1.Header ck = emptyRequest.Header ck) ∧
      ((V03.attr .ID).kind = .DataContentType →
        b1.Header.Values sampleBinding.canon sampleBinding.ContentType =
          emptyRequest.Header.Values sampleBinding.canon sampleBinding.ContentType ++ ["abc"] ∧
        ∀ ck, ck ≠ sampleBinding.canon sampleBinding.ContentType →
          b1.Header ck = emptyRequest.Header ck)) ∧
    (∃ b1, httpRequestEncoder.SetExtension sampleBinding "ext" (some (.str "abc"))
        emptyRequest = (none, b1) ∧
      b1.Body = emptyRequest.Body ∧
      b1.Header.Values sampleBinding.canon (sampleBinding.pfx ++ "ext") =
        emptyRequest.Header.Values sampleBinding.canon (sampleBinding.pfx ++ "ext") ++
          ["abc"] ∧
      ∀ ck, ck ≠ sampleBinding.canon (sampleBinding.pfx ++ "ext") →
        b1.Header ck = emptyRequest.Header ck) :=
  httpRequestEncoder.set_adds_header sampleBinding (V03.attr .ID) "ext" (some (.str "abc"))
    "abc" emptyRequest rfl

/-- C14: when `types.Format` rejects the value, `SetAttribute` and
`SetExtension` return that error and leave the request, headers and body, as it
was. -/
theorem httpRequestEncoder.format_error_leaves_request (env : http.Binding)
    (attr : Option Attribute) (n : String) (value : Any) (err : Error) (b : httpRequestEncoder)
    (hfmt : env.Format value = .error err) :
    httpRequestEncoder.SetAttribute env attr value b = .ok (some err, b) ∧
    httpRequestEncoder.SetExtension env n value b = (some err, b) := by
  constructor
  · simp only [httpRequestEncoder.SetAttribute, hfmt]
  · simp only [httpRequestEncoder.SetExtension, hfmt]

/-- Witness for C14: a byte sequence, which the sample formatter rejects. -/
theorem httpRequestEncoder.format_error_leaves_request_witness :
    httpRequestEncoder.SetAttribute sampleBinding (some (V03.attr .ID)) (some (.bytes [1, 2]))
        emptyRequest = .ok (some (.other "types: cannot format value"), emptyRequest) ∧
    httpRequestEncoder.SetExtension sampleBinding "ext" (some (.bytes [1, 2])) emptyRequest =
      (some (.other "types: cannot format value"), emptyRequest) :=
  httpRequestEncoder.format_error_leaves_request sampleBinding (some (V03.attr .ID)) "ext"
    (some (.bytes [1, 2])) (.other "types: cannot format value") emptyRequest rfl

/-- C15: `SetStructuredEvent(f, r)` returns nil and leaves the request with the
one `Content-Type` value `f.MediaType()`, whatever values it held before, with
the body `r` and every other header as it was. -/
theorem httpRequestEncoder.setStructuredEvent_sets_content_type (env : http.Binding)
    (f : Format) (r : Reader) (b : httpRequestEncoder) :
    (httpRequestEncoder.SetStructuredEvent env f r b).1 = none ∧
    (httpRequestEncoder.SetStructuredEvent env f r b).2.Header.Values env.canon
        env.ContentType = [f.MediaType] ∧
    (httpRequestEncoder.SetStructuredEvent env f r b).2.Body = some r ∧
    ∀ ck, ck ≠ env.canon env.ContentType →
      (httpRequestEncoder.SetStructuredEvent env f r b).2.Header ck = b.Header ck := by
  refine ⟨rfl, ?_, rfl, ?_⟩
  · simp [httpRequestEncoder.SetStructuredEvent, http.Header.Set, http.Header.Values]
  · intro ck hck
    simp [httpRequestEncoder.SetStructuredEvent, http.Header.Set, Function.update, hck]

/-! ### The client -/

/-- The event the defaulter loop ends with is the composition of the
defaulters applied to the event. -/
theorem ceClient.applyDefaulters_event (index : Nat) (fns : List (Event → Event)) (e : Event) :
    (ceClient.applyDefaulters index fns e).1 = composeDefaulters fns e := by
  induction fns generalizing index e with
  | nil => rfl
  | cons fn rest ih =>
    simp only [ceClient.applyDefaulters, composeDefaulters, List.foldl_cons]
    exact ih (index + 1) (fn e)

/-- The calls of the defaulter loop: one for each defaulter, in order, the
defaulter at position `i` being given the result of those before it. -/
theorem ceClient.applyDefaulters_calls (index : Nat) (fns : List (Event → Event)) (e : Event) :
    (ceClient.applyDefaulters index fns e).2 =
      (List.range fns.length).map
        (fun i => ClientCall.Defaulter (index + i) (composeDefaulters (fns.take i) e)) := by
  induction fns generalizing index e with
  | nil => rfl
  | cons fn rest ih =>
    simp only [ceClient.applyDefaulters, List.length_cons, List.range_succ_eq_map,
      List.map_cons, List.map_map]
    rw [ih (index + 1) (fn e)]
    refine congrArg₂ _ ?_ ?_
    · simp [composeDefaulters]
    · apply List.map_congr_left
      intro i _
      simp only [Function.comp, composeDefaulters, List.take_succ_cons, List.foldl_cons]
      rw [Nat.add_assoc, Nat.add_comm 1 i]

/-- What the defaulter step of `Send` gives: the composed event and the calls. -/
theorem ceClient.defaulter_step (fns : List (Event → Event)) (e : Event) :
    (if fns.length > 0 then ceClient.applyDefaulters 0 fns e else (e, [])) =
      (composeDefaulters fns e,
        (List.range fns.length).map
          (fun i => ClientCall.Defaulter i (composeDefaulters (fns.take i) e))) := by
  cases fns with
  | nil => rfl
  | cons fn rest =>
    rw [if_pos (by simp)]
    refine Prod.ext (ceClient.applyDefaulters_event 0 _ e) ?_
    rw [ceClient.applyDefaulters_calls 0 _ e]
    simp

/-- C16: with a transport, when the defaulted event fails `Validate`, `Send`
returns nil with that error and never calls `transport.Send`; when it passes,
`Send` returns exactly what `transport.Send` returns for the defaulted event.
With a nil transport `Send` returns the error of a client that is not ready
and makes no call at all, neither to a defaulter nor to `Validate`. -/
theorem ceClient.send_validates_before_transport {W R : Type} (Validate : Event → Option Error)
    (c : ceClient W R) (e : Event) (w : W) :
    (∀ t, c.transport = some t →
      (∀ err, Validate (composeDefaulters c.eventDefaulterFns e) = some err →
        (c.Send Validate e w).event = none ∧ (c.Send Validate e w).err = some err ∧
        (c.Send Validate e w).world = w ∧
        ∀ call ∈ (c.Send Validate e w).calls, ∀ ev, call ≠ ClientCall.TransportSend ev) ∧
      (Validate (composeDefaulters c.eventDefaulterFns e) = none →
        (c.Send Validate e w).event =
          (t.Send (composeDefaulters c.eventDefaulterFns e) w).1.1 ∧
        (c.Send Validate e w).err =
          (t.Send (composeDefaulters c.eventDefaulterFns e) w).1.2 ∧
        (c.Send Validate e w).world =
          (t.Send (composeDefaulters c.eventDefaulterFns e) w).2)) ∧
    (c.transport = none →
      (c.Send Validate e w).event = none ∧
      (c.Send Validate e w).err =
        some (.other "client not ready, transport not initialized") ∧
      (c.Send Validate e w).world = w ∧
      (c.Send Validate e w).calls = []) := by
  constructor
  · intro t ht
    constructor
    · intro err hv
      have hs : c.Send Validate e w =
          { event := none, err := some err, world := w,
            calls := (List.range c.eventDefaulterFns.length).map
                (fun i => ClientCall.Defaulter i
                  (composeDefaulters (c.eventDefaulterFns.take i) e)) ++
              [.Validate (composeDefaulters c.eventDefaulterFns e)] } := by
        simp only [ceClient.Send, ht, ceClient.defaulter_step, hv]
      rw [hs]
      refine ⟨rfl, rfl, rfl, ?_⟩
      intro call hc ev
      simp only [List.mem_append, List.mem_map, List.mem_singleton] at hc
      rcases hc with ⟨i, _, hi⟩ | hc
      · rw [← hi]
        intro h
        cases h
      · rw [hc]
        intro h
        cases h
    · intro hv
      have hs : c.Send Validate e w =
          { event := (t.Send (composeDefaulters c.eventDefaulterFns e) w).1.1,
            err := (t.Send (composeDefaulters c.eventDefaulterFns e) w).1.2,
            world := (t.Send (composeDefaulters c.eventDefaulterFns e) w).2,
            calls := (List.range c.eventDefaulterFns.length).map
                (fun i => ClientCall.Defaulter i
                  (composeDefaulters (c.eventDefaulterFns.take i) e)) ++
              [.Validate (composeDefaulters c.eventDefaulterFns e),
               .TransportSend (composeDefaulters c.eventDefaulterFns e)] } := by
        simp only [ceClient.Send, ht, ceClient.defaulter_step, hv]
      rw [hs]
      exact ⟨rfl, rfl, rfl⟩
  · intro ht
    have hs : c.Send Validate e w =
        { event := none, err := some (.other "client not ready, transport not initialized"),
          world := w, calls := [] } := by
      simp only [ceClient.Send, ht]
    rw [hs]
    exact ⟨rfl, rfl, rfl, rfl⟩

/-- C17: with a transport, the calls of `Send` are one call of each defaulter,
in registration order, the defaulter at position `i` being given the result of
those before it, then `Validate` of the composition `fn_n(...fn_1(e)...)`, then,
when the validation passes, `transport.Send` of the same event, whose results
and state are what `Send` returns and leaves; when the validation fails, its
error on the composed event is returned and the transport is left as it was.
With an empty chain the event itself is validated and sent. -/
theorem ceClient.send_applies_defaulters_in_order {W R : Type}
    (Validate : Event → Option Error) (c : ceClient W R) (t : Transport W) (e : Event) (w : W)
    (ht : c.transport = some t) :
    (c.Send Validate e w).calls =
      (List.range c.eventDefaulterFns.length).map
        (fun i => ClientCall.Defaulter i (composeDefaulters (c.eventDefaulterFns.take i) e)) ++
      ClientCall.Validate (composeDefaulters c.eventDefaulterFns e) ::
        (match Validate (composeDefaulters c.eventDefaulterFns e) with
          | none => [ClientCall.TransportSend (composeDefaulters c.eventDefaulterFns e)]
          | some _ => []) ∧
    (c.eventDefaulterFns = [] → composeDefaulters c.eventDefaulterFns e = e) ∧
    (Validate (composeDefaulters c.eventDefaulterFns e) = none →
      (c.Send Validate e w).event = (t.Send (composeDefaulters c.eventDefaulterFns e) w).1.1 ∧
      (c.Send Validate e w).err = (t.Send (composeDefaulters c.eventDefaulterFns e) w).1.2 ∧
      (c.Send Validate e w).world = (t.Send (composeDefaulters c.eventDefaulterFns e) w).2) ∧
    (∀ err, Validate (composeDefaulters c.eventDefaulterFns e) = some err →
      (c.Send Validate e w).event = none ∧ (c.Send Validate e w).err = some err ∧
      (c.Send Validate e w).world = w) ∧
    (∀ fn1 fn2 x, composeDefaulters [fn1, fn2] x = fn2 (fn1 x)) ∧
    (∀ fns fn x, composeDefaulters (fns ++ [fn]) x = fn (composeDefaulters fns x)) := by
  refine ⟨?_, ?_, ?_, ?_, fun _ _ _ => rfl, ?_⟩
  · cases hv : Validate (composeDefaulters c.eventDefaulterFns e) with
    | none => simp only [ceClient.Send, ht, ceClient.defaulter_step, hv]
    | some err => simp only [ceClient.Send, ht, ceClient.defaulter_step, hv]
  · intro h
    rw [h]
    rfl
  · intro hv
    have hs : c.Send Validate e w =
        { event := (t.Send (composeDefaulters c.eventDefaulterFns e) w).1.1,
          err := (t.Send (composeDefaulters c.eventDefaulterFns e) w).1.2,
          world := (t.Send (composeDefaulters c.eventDefaulterFns e) w).2,
          calls := (List.range c.eventDefaulterFns.length).map
              (fun i => ClientCall.Defaulter i
                (composeDefaulters (c.eventDefaulterFns.take i) e)) ++
            [.Validate (composeDefaulters c.eventDefaulterFns e),
             .TransportSend (composeDefaulters c.eventDefaulterFns e)] } := by
      simp only [ceClient.Send, ht, ceClient.defaulter_step, hv]
    rw [hs]
    exact ⟨rfl, rfl, rfl⟩
  · intro err hv
    have hs : c.Send Validate e w =
        { event := none, err := some err, world := w,
          calls := (List.range c.eventDefaulterFns.length).map
              (fun i => ClientCall.Defaulter i
                (composeDefaulters (c.eventDefaulterFns.take i) e)) ++
            [.Validate (composeDefaulters c.eventDefaulterFns e)] } := by
      simp only [ceClient.Send, ht, ceClient.defaulter_step, hv]
    rw [hs]
    exact ⟨rfl, rfl, rfl⟩
  · intro fns fn x
    simp [composeDefaulters]

/-- Witness for C17: the sample client, with its two defaulters, sending the
scenario event: the event reaches the transport, which counts it, with the id
and the time the defaulters gave it. -/
theorem ceClient.send_applies_defaulters_in_order_witness :
    sampleValidate (composeDefaulters sampleClient.eventDefaulterFns scenarioEvent) = none ∧
    composeDefaulters sampleClient.eventDefaulterFns scenarioEvent =
      defaultTime (defaultID scenarioEvent) ∧
    (sampleClient.Send sampleValidate scenarioEvent 0).err = none ∧
    (sampleClient.Send sampleValidate scenarioEvent 0).world = 1 :=
  have h := ceClient.send_applies_defaulters_in_order sampleValidate sampleClient
    countingTransport scenarioEvent 0 rfl
  ⟨rfl, h.2.2.2.2.1 defaultID defaultTime scenarioEvent, (h.2.2.1 rfl).2.1, (h.2.2.1 rfl).2.2⟩

/-- C20: on a client with a transport and no receiver, `StartReceiver(fn)`
installs `fn` whatever the transport's `StartReceiver` returns; a second
`StartReceiver(g)` then returns the error of a client that already has a
receiver, makes no call on the transport and leaves `fn` installed; after
`StopReceiver`, whatever the transport's `StopReceiver` returns, no receiver is
installed, and `StartReceiver(g)` installs `g` and calls the transport again. -/
theorem ceClient.receiver_lifecycle {W R : Type} (c : ceClient W R) (t : Transport W)
    (fn g : R) (w : W) (ht : c.transport = some t) (hr : c.receive = none) :
    ((c.StartReceiver (some fn) w).client.receive = some fn ∧
      (c.StartReceiver (some fn) w).client.transport = some t ∧
      (c.StartReceiver (some fn) w).err = (t.StartReceiver w).1 ∧
      (c.StartReceiver (some fn) w).calls = [.TransportStartReceiver]) ∧
    (∀ w1,
      ((c.StartReceiver (some fn) w).client.StartReceiver (some g) w1).err =
        some (.other "client already has a receiver") ∧
      ((c.StartReceiver (some fn) w).client.StartReceiver (some g) w1).calls = [] ∧
      ((c.StartReceiver (some fn) w).client.StartReceiver (some g) w1).world = w1 ∧
      ((c.StartReceiver (some fn) w).client.StartReceiver (some g) w1).client.receive =
        some fn) ∧
    (∀ w1,
      ((c.StartReceiver (some fn) w).client.StopReceiver w1).client.receive = none ∧
      ((c.StartReceiver (some fn) w).client.StopReceiver w1).err = (t.StopReceiver w1).1 ∧
      ∀ w2,
        ((((c.StartReceiver (some fn) w).client.StopReceiver w1).client.StartReceiver
          (some g) w2).client.receive = some g ∧
        (((c.StartReceiver (some fn) w).client.StopReceiver w1).client.StartReceiver
          (some g) w2).err = (t.StartReceiver w2).1 ∧
        (((c.StartReceiver (some fn) w).client.StopReceiver w1).client.StartReceiver
          (some g) w2).calls = [.TransportStartReceiver])) := by
  have h1 : c.StartReceiver (some fn) w =
      { err := (t.StartReceiver w).1, client := { c with receive := some fn },
        world := (t.StartReceiver w).2, calls := [.TransportStartReceiver] } := by
    simp [ceClient.StartReceiver, ht, hr]
  rw [h1]
  refine ⟨⟨rfl, ht, rfl, rfl⟩, ?_, ?_⟩
  · intro w1
    simp [ceClient.StartReceiver, ht]
  · intro w1
    refine ⟨?_, ?_, ?_⟩
    · simp [ceClient.StopReceiver, ht]
    · simp [ceClient.StopReceiver, ht]
    · intro w2
      simp [ceClient.StopReceiver, ceClient.StartReceiver, ht]

/-- Witness for C20: the sample client, whose transport fails both to start and
to stop, with the callbacks 1 and 2. -/
theorem ceClient.receiver_lifecycle_witness :
    (sampleClient.StartReceiver (some 1) 0).client.receive = some 1 ∧
    (sampleClient.StartReceiver (some 1) 0).err = some (.other "listen failed") ∧
    ((sampleClient.StartReceiver (some 1) 0).client.StartReceiver (some 2) 0).err =
      some (.other "client already has a receiver") ∧
    ((sampleClient.StartReceiver (some 1) 0).client.StopReceiver 0).client.receive = none :=
  ⟨(ceClient.receiver_lifecycle sampleClient countingTransport 1 2 0 rfl rfl).1.1,
    rfl,
    ((ceClient.receiver_lifecycle sampleClient countingTransport 1 2 0 rfl rfl).2.1 0).1,
    ((ceClient.receiver_lifecycle sampleClient countingTransport 1 2 0 rfl rfl).2.2 0).1⟩

/-! ### The SQL negate expression -/

/-- Go unary minus on an `int32`: the negation, except on the smallest value,
which it returns; the result is an `int32` and negating twice gives the value
back. -/
theorem negInt32_spec (n : Int) (h : isInt32 n) :
    (n ≠ -2 ^ 31 → negInt32 n = -n) ∧ (n = -2 ^ 31 → negInt32 n = -2 ^ 31) ∧
    isInt32 (negInt32 n) ∧ negInt32 (negInt32 n) = n := by
  obtain ⟨h1, h2⟩ := h
  unfold negInt32 wrapInt32 isInt32
  norm_num at h1 h2 ⊢
  omega

/-- C21: when the child evaluates to a value that casts to the `int32` `n`,
`Evaluate` returns the 32-bit negation of `n` with a nil error, which is `-n`
for every `n` above `-2^31` and `-2^31` for `n = -2^31`; negating twice (the
cast keeping an integer as it is) returns `n`; and when the evaluation of the
child or the cast fails, `Evaluate` returns nil with that same error. -/
theorem negateExpression.evaluate_negates (Cast : Any → Any × Option Error)
    (child : Expression) (event : Event) :
    (∀ v n, child event = .ok (v, none) → Cast v = (some (.int n), none) →
      negateExpression.Evaluate Cast child event = .ok (some (.int (negInt32 n)), none) ∧
      (isInt32 n →
        (n ≠ -2 ^ 31 → negInt32 n = -n) ∧ (n = -2 ^ 31 → negInt32 n = -2 ^ 31) ∧
        isInt32 (negInt32 n))) ∧
    (∀ v n, child event = .ok (v, none) → Cast v = (some (.int n), none) → isInt32 n →
      (∀ m, Cast (some (.int m)) = (some (.int m), none)) →
      negateExpression.Evaluate Cast (negateExpression.Evaluate Cast child) event =
        .ok (some (.int n), none)) ∧
    (∀ v err, child event = .ok (v, some err) →
      negateExpression.Evaluate Cast child event = .ok (none, some err)) ∧
    (∀ v v1 err, child event = .ok (v, none) → Cast v = (v1, some err) →
      negateExpression.Evaluate Cast child event = .ok (none, some err)) := by
  have hok : ∀ v n, child event = .ok (v, none) → Cast v = (some (.int n), none) →
      negateExpression.Evaluate Cast child event = .ok (some (.int (negInt32 n)), none) := by
    intro v n hc hcast
    simp only [negateExpression.Evaluate, hc, hcast]
  refine ⟨?_, ?_, ?_, ?_⟩
  · intro v n hc hcast
    refine ⟨hok v n hc hcast, fun hn => ?_⟩
    have h := negInt32_spec n hn
    exact ⟨h.1, h.2.1, h.2.2.1⟩
  · intro v n hc hcast hn hid
    have h1 := hok v n hc hcast
    have h2 : negateExpression.Evaluate Cast (negateExpression.Evaluate Cast child) event =
        .ok (some (.int (negInt32 (negInt32 n))), none) := by
      rw [negateExpression.Evaluate]
      simp only [h1, hid]
    rw [h2, (negInt32_spec n hn).2.2.2]
  · intro v err hc
    simp only [negateExpression.Evaluate, hc]
  · intro v v1 err hc hcast
    simp only [negateExpression.Evaluate, hc, hcast]

/-- Witness for C21: the smallest `int32` negated once and twice, 5 negated,
and a child whose evaluation fails. -/
theorem negateExpression.evaluate_negates_witness :
    negateExpression.Evaluate sampleCast minInt32Literal Event.empty =
      .ok (some (.int (negInt32 (-2147483648))), none) ∧
    negInt32 (-2147483648) = -2147483648 ∧
    negateExpression.Evaluate sampleCast
        (negateExpression.Evaluate sampleCast minInt32Literal) Event.empty =
      .ok (some (.int (-2147483648)), none) ∧
    negateExpression.Evaluate sampleCast fiveLiteral Event.empty =
      .ok (some (.int (negInt32 5)), none) ∧
    negInt32 5 = -5 ∧
    negateExpression.Evaluate sampleCast failingExpression Event.empty =
      .ok (none, some (.other "missing attribute")) :=
  ⟨((negateExpression.evaluate_negates sampleCast minInt32Literal Event.empty).1
      (some (.int (-2147483648))) (-2147483648) rfl rfl).1,
    by decide,
    (negateExpression.evaluate_negates sampleCast minInt32Literal Event.empty).2.1
      (some (.int (-2147483648))) (-2147483648) rfl rfl (by decide) (fun _ => rfl),
    ((negateExpression.evaluate_negates sampleCast fiveLiteral Event.empty).1
      (some (.int 5)) 5 rfl rfl).1,
    by decide,
    (negateExpression.evaluate_negates sampleCast failingExpression Event.empty).2.2.1
      none (.other "missing attribute") rfl⟩

/-! ### The port in a context -/

/-- Nothing is found under `portKey` in a context on which `ContextWithPort`
was never applied. -/
theorem context.value_neverPorted (ctx : ValueContext) (h : neverPorted ctx) :
    context.Value ctx .portKey = none := by
  induction ctx with
  | nil => rfl
  | cons kv rest ih =>
    obtain ⟨k, v⟩ := kv
    have hk : k ≠ ContextKey.portKey := h (k, v) (List.mem_cons_self _ _)
    have hrest : neverPorted rest := fun x hx => h x (List.mem_cons_of_mem _ hx)
    have ih1 := ih hrest
    unfold context.Value at ih1 ⊢
    have hbeq : (ContextKey.portKey == k) = false := by
      simpa using Ne.symm hk
    rw [List.lookup_cons, hbeq]
    exact ih1

/-- C22: `PortFromContext(ContextWithPort(ctx, p)) = p`; of two applications of
`ContextWithPort` the most recent wins, and a value stored later under another
key does not hide the port; `PortFromContext` returns 0 on every context on
which `ContextWithPort` was never applied, so that a stored port of 0 reads as
no port does. -/
theorem PortFromContext_spec (ctx : ValueContext) (p q : Int) :
    PortFromContext (ContextWithPort ctx p) = p ∧
    PortFromContext (ContextWithPort (ContextWithPort ctx p) q) = q ∧
    (∀ key val, key ≠ ContextKey.portKey →
      PortFromContext (context.WithValue (ContextWithPort ctx p) key val) = p) ∧
    (neverPorted ctx → PortFromContext ctx = 0) ∧
    (neverPorted ctx → PortFromContext (ContextWithPort ctx 0) = PortFromContext ctx) := by
  have h1 : ∀ c r, PortFromContext (ContextWithPort c r) = r := by
    intro c r
    simp [PortFromContext, ContextWithPort, context.WithValue, context.Value, List.lookup]
  have h0 : neverPorted ctx → PortFromContext ctx = 0 := by
    intro h
    simp only [PortFromContext, context.value_neverPorted ctx h]
  refine ⟨h1 ctx p, h1 _ q, ?_, h0, fun h => by rw [h1, h0 h]⟩
  intro key val hk
  have hbeq : (ContextKey.portKey == key) = false := by
    simpa using Ne.symm hk
  have h2 : context.Value (context.WithValue (ContextWithPort ctx p) key val) .portKey =
      context.Value (ContextWithPort ctx p) .portKey := by
    unfold context.Value context.WithValue
    rw [List.lookup_cons, hbeq]
  have h3 := h1 ctx p
  unfold PortFromContext at h3 ⊢
  rw [h2]
  exact h3

/-- Witness for C22: a context holding a value of another package, on which
`ContextWithPort` was never applied. -/
theorem PortFromContext_spec_witness :
    neverPorted foreignContext ∧
    PortFromContext (ContextWithPort foreignContext 8080) = 8080 ∧
    PortFromContext foreignContext = 0 ∧
    PortFromContext (ContextWithPort foreignContext 0) = PortFromContext foreignContext :=
  have hn : neverPorted foreignContext := by
    intro kv hkv
    simp only [foreignContext, List.mem_singleton] at hkv
    rw [hkv]
    decide
  ⟨hn, (PortFromContext_spec foreignContext 8080 0).1,
    (PortFromContext_spec foreignContext 8080 0).2.2.2.1 hn,
    (PortFromContext_spec foreignContext 8080 0).2.2.2.2 hn⟩

end CloudEvents
